import Mathlib

/-!
Verification development for the ETL_JumpStart pipeline
(files: src/utils.py, src/silver.py, src/gold.py).

The Python code is shallowly embedded: a pandas DataFrame becomes a list of
rows (each row an association list from column name to cell value), pandas
cell scalars become the inductive type Value (with a single null constructor
standing for NaN / NaT / NA / None), and every fallible pandas operation
(KeyError on a missing column, TypeError on an unsafe cast or an untyped
comparison, AttributeError in a row-wise apply) is returned through
Except String.  Floating point numbers are modelled by rationals; dates by a
year/month/day record.  Places where pandas behaviour is simplified
(the free-format date parser, integer-epoch datetimes, the shortest
round-trip float printer) are noted in doc comments at the definition.
-/

set_option maxHeartbeats 1000000
set_option maxRecDepth 4000

deriving instance DecidableEq for Except

namespace ETL

/-- A cell scalar of a dataframe.  null models every pandas missing value
(NaN, NaT, NA, None); float is modelled by an exact rational; date by a
calendar day; strlist models the Python list-of-strings cells produced by
the authors split in the Gold transformer. -/
inductive Value where
  | null
  | int (n : Int)
  | float (q : Rat)
  | str (s : String)
  | date (y : Int) (m : Nat) (d : Nat)
  | strlist (l : List String)
deriving DecidableEq, Repr

/-- True exactly on the missing-value scalar (pandas isna on a cell). -/
def Value.isNull : Value → Bool
  | .null => true
  | _ => false

/-- A dataframe row: an association list from column name to cell value. -/
abbrev Row := List (String × Value)

/-- A dataframe: the column schema plus the ordered list of rows. -/
structure DataFrame where
  cols : List String
  rows : List Row
deriving DecidableEq, Repr

/-- Cell access: the first binding of the column in the row, defaulting to
null (pandas reads a missing cell of a known column as NaN). -/
def cellOf (r : Row) (c : String) : Value :=
  (List.lookup c r).getD .null

/-- Cell update: replace the first binding of the column, or append one if
the row has no binding for it. -/
def setCell : Row → String → Value → Row
  | [], c, v => [(c, v)]
  | (c', v') :: rest, c, v =>
      if c' = c then (c, v) :: rest else (c', v') :: setCell rest c v

/-- A dataframe is well formed when every row carries exactly the schema
columns, in schema order (always true of a real pandas frame). -/
def Wf (df : DataFrame) : Prop :=
  ∀ r ∈ df.rows, r.map Prod.fst = df.cols

instance (df : DataFrame) : Decidable (Wf df) := by
  unfold Wf; infer_instance

/-! ### Python string helpers -/

/-- Drop trailing whitespace from a character list. -/
def rstripL (cs : List Char) : List Char :=
  (cs.reverse.dropWhile Char.isWhitespace).reverse

/-- Python str.rstrip of whitespace. -/
def pyRstrip (s : String) : String :=
  String.mk (rstripL s.toList)

/-- Python str.strip of whitespace. -/
def pyStrip (s : String) : String :=
  String.mk (rstripL (s.toList.dropWhile Char.isWhitespace))

/-- Python str.lower, character by character. -/
def pyLower (s : String) : String :=
  String.mk (s.toList.map Char.toLower)

/-- One step of Python str.title: uppercase a letter that follows a
non-letter, lowercase a letter that follows a letter. -/
def titleGo : List Char → Bool → List Char
  | [], _ => []
  | c :: cs, prevAlpha =>
      (if c.isAlpha then (if prevAlpha then c.toLower else c.toUpper) else c)
        :: titleGo cs c.isAlpha

/-- Python str.title. -/
def pyTitle (s : String) : String :=
  String.mk (titleGo s.toList false)

/-- Python str.zfill restricted to unsigned content: pad on the left with
zeros up to the width (the identifier fields fed to it are digit strings). -/
def zfill (w : Nat) (s : String) : String :=
  if s.length < w then String.mk (List.replicate (w - s.length) '0') ++ s else s

/-- Numeric value of a decimal digit character. -/
def digitVal (c : Char) : Nat := c.toNat - '0'.toNat

/-- Parse a nonempty all-digit character list as a natural number. -/
def parseDigits? (cs : List Char) : Option Nat :=
  if cs ≠ [] ∧ cs.all Char.isDigit then
    some (cs.foldl (fun acc c => acc * 10 + digitVal c) 0)
  else none

/-- Decimal expansion digits of a proper fraction n/d, fuel bounded. -/
def fracDigits : Nat → Nat → Nat → List Char
  | 0, _, _ => []
  | _ + 1, 0, _ => []
  | fuel + 1, n, d =>
      let n10 := n * 10
      Char.ofNat ('0'.toNat + n10 / d) :: fracDigits fuel (n10 % d) d

/-- Python repr of a nonnegative float given as an exact rational:
integer part, a dot, then the fraction digits (fuel bounded; Python prints
the shortest round-tripping decimal, which this approximates for the
terminating fractions that actually occur in the pipeline). -/
def floatReprNonneg (q : Rat) : String :=
  let n := q.num.toNat
  let i := n / q.den
  let rem := n % q.den
  if rem = 0 then toString i ++ ".0"
  else toString i ++ "." ++ String.mk (fracDigits 25 rem q.den)

/-- Python str of a float modelled as a rational. -/
def floatRepr (q : Rat) : String :=
  if q < 0 then "-" ++ floatReprNonneg (-q) else floatReprNonneg q

/-- Left zero padding of a natural number to a digit width. -/
def padNat (w : Nat) (n : Nat) : String :=
  zfill w (toString n)

/-- Python str of a pandas Timestamp at midnight. -/
def dateRepr (y : Int) (m d : Nat) : String :=
  toString y ++ "-" ++ padNat 2 m ++ "-" ++ padNat 2 d ++ " 00:00:00"

/-- Python str of a cell value as pandas astype(str) produces it: NaN
prints as the string nan, floats and dates as their Python reprs. -/
def pyStr : Value → String
  | .null => "nan"
  | .int n => toString n
  | .float q => floatRepr q
  | .str s => s
  | .date y m d => dateRepr y m d
  | .strlist l => toString l

/-! ### Scalar coercions (pandas to_numeric / to_datetime / astype) -/

/-- Parse the unsigned body of a trimmed decimal literal with an optional
fractional part; an integral literal yields an int cell, a fractional one
a float cell (scientific notation is not modelled). -/
def parseNumSigned (neg : Bool) (body : List Char) : Option Value :=
  match body.splitOn '.' with
  | [ip] =>
      (parseDigits? ip).map fun n =>
        .int (if neg then -(n : Int) else (n : Int))
  | [ip, fp] =>
      match parseDigits? ip, parseDigits? fp with
      | some n, some f =>
          let q : Rat := (n : Rat) + (f : Rat) / ((10 : Rat) ^ fp.length)
          some (.float (if neg then -q else q))
      | _, _ => none
  | _ => none

/-- Split the optional leading minus off the trimmed literal and parse the
unsigned body. -/
def parseNum? (s : String) : Option Value :=
  match (pyStrip s).toList with
  | '-' :: rest => parseNumSigned true rest
  | cs => parseNumSigned false cs

/-- pandas to_numeric with errors coerce on one scalar: missing stays
missing, numbers pass through, a parseable string becomes a number and
anything else becomes missing.  (A datetime cell is simplified to a
coercion failure; pandas would use its epoch nanoseconds.) -/
def toNumeric : Value → Value
  | .null => .null
  | .int n => .int n
  | .float q => .float q
  | .str s => (parseNum? s).getD .null
  | _ => .null

/-- pandas astype Int64 on one scalar of a numeric column: missing is
allowed, an integral value casts, and a fractional float raises (pandas
TypeError: cannot safely cast non-equivalent float to int). -/
def astInt64 : Value → Except String Value
  | .null => .ok .null
  | .int n => .ok (.int n)
  | .float q =>
      if q.den = 1 then .ok (.int q.num)
      else .error "TypeError: cannot safely cast non-equivalent float64 to int64"
  | _ => .error "TypeError: unexpected scalar in numeric cast"

/-- pandas astype float on one scalar of a numeric column. -/
def asFloat : Value → Value
  | .null => .null
  | .int n => .float (n : Rat)
  | .float q => .float q
  | _ => .null

/-- Parse an ISO YYYY-MM-DD date string with plausibility bounds on month
and day (pandas accepts many more formats; the model supports the ISO form
that the pipeline data uses). -/
def parseDate? (s : String) : Option Value :=
  match (pyStrip s).toList.splitOn '-' with
  | [ys, ms, ds] =>
      match parseDigits? ys, parseDigits? ms, parseDigits? ds with
      | some y, some m, some d =>
          if 1 ≤ m ∧ m ≤ 12 ∧ 1 ≤ d ∧ d ≤ 31 then some (.date (y : Int) m d)
          else none
      | _, _, _ => none
  | _ => none

/-- pandas to_datetime with errors coerce on one scalar: missing stays
missing, a datetime passes through, a parseable date string converts and
anything else becomes missing.  (An integer cell is simplified to a
coercion failure; pandas would read it as epoch nanoseconds.) -/
def toDatetime : Value → Value
  | .null => .null
  | .date y m d => .date y m d
  | .str s => (parseDate? s).getD .null
  | _ => .null

/-! ### ISBN checksum validators (src/utils.py lines 15-28) -/

/-- validate_isbn10_checksum from src/utils.py: gate the input through the
pattern of ten digits, weight the first nine digits by 10 down to 2, take
11 minus the sum mod 11, mod 11 again, and compare its rendering (the
digit, or X for a check value of 10) against the final character. -/
def validate_isbn10_checksum (val : String) : Bool :=
  let cs := val.toList
  if cs.length = 10 ∧ cs.all Char.isDigit then
    let total := ((cs.take 9).enum.map (fun p => (10 - p.1) * digitVal p.2)).sum
    let check := (11 - total % 11) % 11
    (if check < 10 then toString check else "X") = String.mk (cs.drop 9)
  else false

/-- validate_isbn13_checksum from src/utils.py: gate through thirteen
digits, weight the first twelve alternately by 1 and 3, take 10 minus the
sum mod 10, mod 10 again, and compare numerically with the final digit. -/
def validate_isbn13_checksum (val : String) : Bool :=
  let cs := val.toList
  if cs.length = 13 ∧ cs.all Char.isDigit then
    let total := ((cs.take 12).enum.map
      (fun p => (if p.1 % 2 = 0 then 1 else 3) * digitVal p.2)).sum
    let check := (10 - total % 10) % 10
    check = digitVal ((cs.drop 12).headD '0')
  else false

/-- The ISBN-10 validator applied to a raw cell, as Series.apply does in
apply_custom_udfs: a string cell runs the checksum; a non-string cell is
first rendered by str for the regex gate and, if ten digits, the subsequent
Python slicing of the non-string raises TypeError. -/
def isbn10Udf : Value → Except String Bool
  | .str s => .ok (validate_isbn10_checksum s)
  | v =>
      let s := (pyStr v).toList
      if s.length = 10 ∧ s.all Char.isDigit then .error "TypeError: value is not subscriptable"
      else .ok false

/-- The ISBN-13 validator applied to a raw cell (same shape as the ISBN-10
wrapper). -/
def isbn13Udf : Value → Except String Bool
  | .str s => .ok (validate_isbn13_checksum s)
  | v =>
      let s := (pyStr v).toList
      if s.length = 13 ∧ s.all Char.isDigit then .error "TypeError: value is not subscriptable"
      else .ok false

/-- UDF_REGISTRY from src/utils.py: the fixed name-to-predicate registry. -/
def UDF_REGISTRY (name : String) : Option (Value → Except String Bool) :=
  if name = "validate_isbn10_checksum" then some isbn10Udf
  else if name = "validate_isbn13_checksum" then some isbn13Udf
  else none

/-! ### Publisher standardization (src/utils.py lines 293-305) -/

/-- One re.sub of a pattern of optional whitespace, the literal word and
optional whitespace anchored at the string end: strip trailing whitespace,
and if the word then ends the string remove it together with the
whitespace run before it; otherwise leave the name unchanged. -/
def stripFormalWord (name : String) (word : String) : String :=
  let t := rstripL name.toList
  let w := word.toList
  if w.length ≤ t.length ∧ t.drop (t.length - w.length) = w then
    String.mk (rstripL (t.take (t.length - w.length)))
  else name

/-- The fixed suffix-token list of clean_publisher_name. -/
def formalWords : List String :=
  ["inc.", "inc", "ltd", "llc", "press", "publishing", "books", "company",
   "corp.", "corporation", "limited", "verlag"]

/-- clean_publisher_name from src/utils.py: lowercase, strip each known
trailing corporate-suffix token anchored at the end, then strip and
title-case the remainder. -/
def clean_publisher_name (name : String) : String :=
  pyTitle (pyStrip (formalWords.foldl stripFormalWord (pyLower name)))

/-! ### A small regular-expression engine (for the regex rule stage)

Patterns of the flexible rule file are modelled by this abstract syntax;
matching is by Brzozowski derivatives.  Series.str.match anchors at the
start of the string only (Python re.match), Series.str.fullmatch would
anchor at both ends. -/

inductive RE where
  | fail
  | eps
  | chr (c : Char)
  | dot
  | alt (a b : RE)
  | cat (a b : RE)
  | star (a : RE)
deriving DecidableEq, Repr

/-- Whether the pattern accepts the empty string. -/
def RE.nullable : RE → Bool
  | .fail => false
  | .eps => true
  | .chr _ => false
  | .dot => false
  | .alt a b => a.nullable || b.nullable
  | .cat a b => a.nullable && b.nullable
  | .star _ => true

/-- Brzozowski derivative of the pattern by one character. -/
def RE.deriv : RE → Char → RE
  | .fail, _ => .fail
  | .eps, _ => .fail
  | .chr c, x => if c = x then .eps else .fail
  | .dot, _ => .eps
  | .alt a b, x => .alt (a.deriv x) (b.deriv x)
  | .cat a b, x =>
      if a.nullable then .alt (.cat (a.deriv x) b) (b.deriv x)
      else .cat (a.deriv x) b
  | .star a, x => .cat (a.deriv x) (.star a)

/-- Whole-string matching (Python re.fullmatch). -/
def matchFull (r : RE) : List Char → Bool
  | [] => r.nullable
  | c :: cs => matchFull (r.deriv c) cs

/-- Initial-segment matching (Python re.match, what Series.str.match
uses): some possibly empty initial segment of the string matches. -/
def matchStart (r : RE) : List Char → Bool
  | [] => r.nullable
  | c :: cs => r.nullable || matchStart (r.deriv c) cs

/-! ### Structural metadata and flexible rules (the Rule Repository) -/

/-- One row of the structural metadata file silver_md.csv, already filtered
to the table at hand: column name, the 0/1 flags and the declared dtype. -/
structure MetaRow where
  column_name : String
  PK : Nat
  NON_NULLABLE : Nat
  UNIQUE : Nat
  dtype : String
deriving DecidableEq, Repr

/-- One entry of the ranges list of the rules file. -/
structure RangeRule where
  col : String
  rtype : Option String
  rmin : Option Value
  rmax : Option Value
deriving DecidableEq, Repr

/-- One entry of the regex list of the rules file. -/
structure RegexRule where
  col : String
  pattern : RE
deriving DecidableEq, Repr

/-- One entry of the custom_checks list of the rules file. -/
structure CustomRule where
  col : String
  udf : String
deriving DecidableEq, Repr

/-- The flexible JSON rule bundle; an absent category is the empty list. -/
structure FlexRules where
  defaults : List (String × Value)
  mappings : List (String × List (Value × Value))
  ranges : List RangeRule
  regex : List RegexRule
  custom_checks : List CustomRule
deriving DecidableEq, Repr

/-- The empty rule bundle (missing or unset rules file). -/
def FlexRules.empty : FlexRules := ⟨[], [], [], [], []⟩

/-- An Except-valued filter: evaluates the predicate row by row, keeping
the passing rows, and propagates the first raised error. -/
def filterE {α : Type} (p : α → Except String Bool) :
    List α → Except String (List α)
  | [] => .ok []
  | x :: xs =>
      match p x with
      | .error e => .error e
      | .ok b =>
          match filterE p xs with
          | .error e => .error e
          | .ok r => .ok (if b then x :: r else r)

/-- An Except-valued map, propagating the first raised error. -/
def mapE {α β : Type} (f : α → Except String β) :
    List α → Except String (List β)
  | [] => .ok []
  | x :: xs =>
      match f x with
      | .error e => .error e
      | .ok y =>
          match mapE f xs with
          | .error e => .error e
          | .ok ys => .ok (y :: ys)

/-- An Except-valued left fold over a list of stages, stopping at the
first raised error (the shape of every sequential loop in the engine). -/
def foldE {β : Type} (step : DataFrame → β → Except String DataFrame)
    (d : DataFrame) : List β → Except String DataFrame
  | [] => .ok d
  | b :: bs =>
      match step d b with
      | .error e => .error e
      | .ok d' => foldE step d' bs

/-! ### Silver cleaning stages (DataCleaning, src/utils.py lines 75-211) -/

/-- The declared primary-key columns of the metadata. -/
def pkCols (meta : List MetaRow) : List String :=
  (meta.filter (fun m => m.PK = 1)).map (fun m => m.column_name)

/-- The declared non-nullable columns of the metadata. -/
def nnCols (meta : List MetaRow) : List String :=
  (meta.filter (fun m => m.NON_NULLABLE = 1)).map (fun m => m.column_name)

/-- The declared unique columns of the metadata. -/
def uniqCols (meta : List MetaRow) : List String :=
  (meta.filter (fun m => m.UNIQUE = 1)).map (fun m => m.column_name)

/-- The primary-key tuple of a row. -/
def keyOf (cols : List String) (r : Row) : List Value :=
  cols.map (cellOf r)

/-- pandas drop_duplicates with keep first on a key function, written with
an accumulator of the keys already seen. -/
def dedupByKey {β : Type} [DecidableEq β] (key : Row → β) :
    List Row → List β → List Row
  | [], _ => []
  | r :: rs, seen =>
      if key r ∈ seen then dedupByKey key rs seen
      else r :: dedupByKey key rs (key r :: seen)

/-- validate_primary_keys: when primary-key columns are declared, keep the
rows whose key columns are all non-null, then drop later duplicate key
tuples keeping the first occurrence; with no declared key the frame is
returned unchanged (a warning is logged).  Selecting a declared column
that the data lacks raises KeyError. -/
def validate_primary_keys (meta : List MetaRow) (df : DataFrame) :
    Except String DataFrame :=
  let pk := pkCols meta
  if pk.isEmpty then .ok df
  else if pk.all (fun c => c ∈ df.cols) then
    let kept := df.rows.filter (fun r => pk.all (fun c => !(cellOf r c).isNull))
    .ok { df with rows := dedupByKey (keyOf pk) kept [] }
  else .error "KeyError: primary-key column missing from data"

/-- validate_non_nulls: drop the rows carrying a null in any declared
non-nullable column; no declared column is a no-op. -/
def validate_non_nulls (meta : List MetaRow) (df : DataFrame) :
    Except String DataFrame :=
  let nn := nnCols meta
  if nn.isEmpty then .ok df
  else if nn.all (fun c => c ∈ df.cols) then
    .ok { df with rows := df.rows.filter (fun r => nn.all (fun c => !(cellOf r c).isNull)) }
  else .error "KeyError: non-nullable column missing from data"

/-- One iteration of the validate_unique loop: drop_duplicates on one
declared unique column, keep first; a missing column raises KeyError. -/
def uniqStep (d : DataFrame) (c : String) : Except String DataFrame :=
  if c ∈ d.cols then
    .ok { d with rows := dedupByKey (fun r => cellOf r c) d.rows [] }
  else .error "KeyError: unique column missing from data"

/-- validate_unique: per declared unique column, independently, drop later
duplicate values keeping the first occurrence. -/
def validate_unique (meta : List MetaRow) (df : DataFrame) :
    Except String DataFrame :=
  foldE uniqStep df (uniqCols meta)

/-- The four datatype branches of validate_datatype, selected from the
lowercased declared dtype string. -/
inductive DKind where
  | kint
  | kfloat
  | kdate
  | kstr
deriving DecidableEq, Repr

/-- Branch selection of validate_datatype on the declared dtype. -/
def dtypeKind (s : String) : DKind :=
  let t := pyLower s
  if t = "int" ∨ t = "integer" then .kint
  else if t = "float" ∨ t = "double" then .kfloat
  else if t = "date" ∨ t = "datetime" then .kdate
  else .kstr

/-- Whether one declared-typed cell makes validate_datatype drop its row:
the coerced value is missing while the original was not.  The string
fallback never drops. -/
def dtypeDrops (k : DKind) (v : Value) : Bool :=
  match k with
  | .kint => (toNumeric v).isNull && !v.isNull
  | .kfloat => (toNumeric v).isNull && !v.isNull
  | .kdate => (toDatetime v).isNull && !v.isNull
  | .kstr => false

/-- The value a surviving cell is rewritten to by validate_datatype, with
the int branch raising on a fractional float (pandas astype Int64). -/
def dtypeCast (k : DKind) (v : Value) : Except String Value :=
  match k with
  | .kint => astInt64 (toNumeric v)
  | .kfloat => .ok (asFloat (toNumeric v))
  | .kdate => .ok (toDatetime v)
  | .kstr => .ok (.str (pyStr v))

/-- The rewrite of one surviving row by the datatype stage of one column:
the coerced value written back into the cell, raising when the cast
raises. -/
def castCell (k : DKind) (c : String) (r : Row) : Except String Row :=
  match dtypeCast k (cellOf r c) with
  | .error e => .error e
  | .ok w => .ok (setCell r c w)

/-- One metadata row of the validate_datatype loop: a declared column
absent from the data is skipped with a warning; otherwise the rows whose
cell fails coercion despite being non-null are dropped and the column is
rewritten to its coerced values. -/
def applyDtypeStage (df : DataFrame) (m : MetaRow) : Except String DataFrame :=
  let c := m.column_name
  let k := dtypeKind m.dtype
  if c ∈ df.cols then
    match mapE (castCell k c) (df.rows.filter (fun r => !dtypeDrops k (cellOf r c))) with
    | .ok rows => .ok { df with rows := rows }
    | .error e => .error e
  else .ok df

/-- validate_datatype: the metadata-driven coercion loop over all declared
columns (src/utils.py lines 115-148; the trailing reset_index has no
observable effect in this model). -/
def validate_datatype (meta : List MetaRow) (df : DataFrame) :
    Except String DataFrame :=
  foldE applyDtypeStage df meta

/-- One iteration of the apply_defaults loop: fillna of one configured
column with its default value, skipped when the column is absent. -/
def defaultStep (d : DataFrame) (p : String × Value) : DataFrame :=
  if p.1 ∈ d.cols then
    { d with rows := d.rows.map (fun r =>
        if (cellOf r p.1).isNull then setCell r p.1 p.2 else r) }
  else d

/-- apply_defaults: per configured default whose column is present, replace
the null cells of the column by the default value. -/
def apply_defaults (rules : FlexRules) (df : DataFrame) : DataFrame :=
  rules.defaults.foldl defaultStep df

/-- One iteration of the apply_mappings loop: the rule name minus every
occurrence of the _fix suffix names the column; a present column gets a
value-to-value replace, unmapped values passing through unchanged. -/
def mappingStep (d : DataFrame) (p : String × List (Value × Value)) : DataFrame :=
  let c := p.1.replace "_fix" ""
  if c ∈ d.cols then
    { d with rows := d.rows.map (fun r =>
        match (p.2.lookup (cellOf r c)) with
        | some w => setCell r c w
        | none => r) }
  else d

/-- apply_mappings: the configured alias replacements, one column each. -/
def apply_mappings (rules : FlexRules) (df : DataFrame) : DataFrame :=
  rules.mappings.foldl mappingStep df

/-- One pandas comparison a <= b between a cell and a bound, with the
pandas outcomes: any missing operand compares false, numbers compare
numerically, dates and strings within their own kind, and a mixed-type
comparison raises TypeError. -/
def valCmpLE (a b : Value) : Except String Bool :=
  if a.isNull ∨ b.isNull then .ok false
  else
    match a, b with
    | .int x, .int y => .ok (decide (x ≤ y))
    | .int x, .float y => .ok (decide ((x : Rat) ≤ y))
    | .float x, .int y => .ok (decide (x ≤ (y : Rat)))
    | .float x, .float y => .ok (decide (x ≤ y))
    | .str s, .str t => .ok (decide (s ≤ t))
    | .date y1 m1 d1, .date y2 m2 d2 =>
        .ok (decide (y1 < y2 ∨ (y1 = y2 ∧ (m1 < m2 ∨ (m1 = m2 ∧ d1 ≤ d2)))))
    | _, _ => .error "TypeError: unordered comparison"

/-- The comparison a >= b, by flipping the operands. -/
def valCmpGE (a b : Value) : Except String Bool := valCmpLE b a

/-- One iteration of the apply_ranges loop on one rule of a present
column: either the date-not-future filter against today, or the optional
lower and then upper bound filters; an absent column is skipped. -/
def rangeStep (today : Value) (d : DataFrame) (rule : RangeRule) :
    Except String DataFrame :=
  if rule.col ∈ d.cols then
    if rule.rtype = some "date_not_future" then
      match filterE (fun r => valCmpLE (cellOf r rule.col) today) d.rows with
      | .error e => .error e
      | .ok rows => .ok { d with rows := rows }
    else
      match (match rule.rmin with
             | some lo => filterE (fun r => valCmpGE (cellOf r rule.col) lo) d.rows
             | none => .ok d.rows) with
      | .error e => .error e
      | .ok rows1 =>
          match (match rule.rmax with
                 | some hi => filterE (fun r => valCmpLE (cellOf r rule.col) hi) rows1
                 | none => .ok rows1) with
          | .error e => .error e
          | .ok rows2 => .ok { d with rows := rows2 }
  else .ok d

/-- apply_ranges with the processing date passed explicitly. -/
def apply_ranges (today : Value) (rules : FlexRules) (df : DataFrame) :
    Except String DataFrame :=
  foldE (rangeStep today) df rules.ranges

/-- One iteration of the apply_regex loop: on a present column keep the
rows whose cell rendered through astype(str) matches the pattern at the
start of the string (Series.str.match, Python re.match semantics). -/
def regexStep (d : DataFrame) (rule : RegexRule) : DataFrame :=
  if rule.col ∈ d.cols then
    { d with rows := d.rows.filter (fun r =>
        matchStart rule.pattern (pyStr (cellOf r rule.col)).toList) }
  else d

/-- apply_regex: the configured pattern filters, one column each. -/
def apply_regex (rules : FlexRules) (df : DataFrame) : DataFrame :=
  rules.regex.foldl regexStep df

/-- One iteration of the apply_custom_udfs loop: on a present column,
resolve the predicate name in the registry (an unknown name is skipped
with a warning) and keep the rows it accepts; a predicate raising on a
cell aborts the file. -/
def udfStep (d : DataFrame) (rule : CustomRule) : Except String DataFrame :=
  if rule.col ∈ d.cols then
    match UDF_REGISTRY rule.udf with
    | some f =>
        match filterE (fun r => f (cellOf r rule.col)) d.rows with
        | .error e => .error e
        | .ok rows => .ok { d with rows := rows }
    | none => .ok d
  else .ok d

/-- apply_custom_udfs: the configured named-predicate filters. -/
def apply_custom_udfs (rules : FlexRules) (df : DataFrame) :
    Except String DataFrame :=
  foldE udfStep df rules.custom_checks

/-! ### The fixed Silver pipeline order (src/silver.py lines 50-61) -/

/-- The nine stages of the Silver cleaning chain. -/
inductive SStage where
  | pk
  | nonNull
  | uniq
  | dtype
  | defaults
  | mappings
  | ranges
  | regex
  | udfs
deriving DecidableEq, Repr, BEq

/-- Dispatch of one stage name to its stage function. -/
def runStage (today : Value) (meta : List MetaRow) (rules : FlexRules)
    (s : SStage) (df : DataFrame) : Except String DataFrame :=
  match s with
  | .pk => validate_primary_keys meta df
  | .nonNull => validate_non_nulls meta df
  | .uniq => validate_unique meta df
  | .dtype => validate_datatype meta df
  | .defaults => .ok (apply_defaults rules df)
  | .mappings => .ok (apply_mappings rules df)
  | .ranges => apply_ranges today rules df
  | .regex => .ok (apply_regex rules df)
  | .udfs => apply_custom_udfs rules df

/-- The fixed method-chain order of ingest_to_silver. -/
def silverOrder : List SStage :=
  [.pk, .nonNull, .uniq, .dtype, .defaults, .mappings, .ranges, .regex, .udfs]

/-- The full Silver cleaning pipeline of ingest_to_silver: the nine stages
folded over one raw frame in the fixed order. -/
def runSilverPipeline (today : Value) (meta : List MetaRow) (rules : FlexRules)
    (df : DataFrame) : Except String DataFrame :=
  foldE (fun d s => runStage today meta rules s d) df silverOrder

/-! ### Gold transformer (BooksGoldTransformer.transform, src/utils.py 321-373) -/

/-- Set a whole column from a per-row function, appending the column to the
schema when it is new (how a pandas column assignment behaves). -/
def setColumn (df : DataFrame) (c : String) (f : Row → Value) : DataFrame :=
  { cols := if c ∈ df.cols then df.cols else df.cols ++ [c],
    rows := df.rows.map (fun r => setCell r c (f r)) }

/-- Series.str.extract of the first nongreedy parenthesized group: the text
between the first opening parenthesis and the first closing parenthesis
after it, missing when there is no such pair or the cell is not a string. -/
def extractSeries (s : String) : Value :=
  let cs := s.toList
  let rest := cs.dropWhile (fun c => c ≠ '(')
  match rest with
  | [] => .null
  | _ :: after =>
      if ')' ∈ after then .str (String.mk (after.takeWhile (fun c => c ≠ ')')))
      else .null

/-- The series cell derived from a title cell (.str semantics: a non-string
cell gives missing). -/
def seriesOf : Value → Value
  | .str s => extractSeries s
  | _ => .null

/-- Series.str.replace of an optional-whitespace parenthesized suffix
anchored at the end: when the string ends with a closing parenthesis and
contains an opening one, everything from the first opening parenthesis on,
together with the whitespace run before it, is removed. -/
def stripParenSuffix (s : String) : String :=
  let cs := s.toList
  if cs.getLast? = some ')' ∧ '(' ∈ cs then
    String.mk (rstripL (cs.takeWhile (fun c => c ≠ '(')))
  else s

/-- The cleaned title cell (.str semantics on non-strings). -/
def titleStripped : Value → Value
  | .str s => .str (stripParenSuffix s)
  | _ => .null

/-- The first element of the slash-split author list. -/
def primaryAuthorOf : Value → Value
  | .str s => .str (String.mk ((s.toList.splitOn '/').headD s.toList))
  | _ => .null

/-- The whole slash-split author list as a Python list cell. -/
def allAuthorsOf : Value → Value
  | .str s => .strlist ((s.toList.splitOn '/').map String.mk)
  | _ => .null

/-- The combined ISBN mask of transform: both checksums pass on the already
stringified, zero-padded identifier cells. -/
def isbnMaskOk (r : Row) : Bool :=
  (match cellOf r "isbn" with
   | .str s => validate_isbn10_checksum s
   | _ => false) &&
  (match cellOf r "isbn13" with
   | .str s => validate_isbn13_checksum s
   | _ => false)

/-- The publisher standardization of one row: Series.apply of
clean_publisher_name, which calls .lower on the cell and therefore raises
AttributeError on any non-string cell (in particular a NaN). -/
def cleanPublisherCell (r : Row) : Except String Row :=
  match cellOf r "publisher" with
  | .str s => .ok (setCell r "publisher" (.str (clean_publisher_name s)))
  | _ => .error "AttributeError: value has no attribute lower"

/-- The book-age cell: processing year minus the to_datetime year of the
publication date, missing when the date does not parse. -/
def bookAgeOf (todayYear : Int) (v : Value) : Value :=
  match toDatetime v with
  | .date y _ _ => .int (todayYear - y)
  | _ => .null

/-- A numeric reading of a cell for the popularity score. -/
def asRat? : Value → Option Rat
  | .int n => some (n : Rat)
  | .float q => some q
  | _ => none

/-- The popularity-score cell of one row: rating times log1p of the rating
count, with missing inputs propagating to a missing score and non-numeric
inputs raising as numpy would.  The real-valued log1p is passed in as a
function parameter since floating-point transcendentals are not modelled. -/
def scoreCell (log1p : Rat → Rat) (r : Row) : Except String Row :=
  let a := cellOf r "average_rating"
  let c := cellOf r "ratings_count"
  if a.isNull ∨ c.isNull then
    .ok (setCell r "rating_popularity_score" .null)
  else
    match asRat? a, asRat? c with
    | some x, some y => .ok (setCell r "rating_popularity_score" (.float (x * log1p y)))
    | _, _ => .error "TypeError: non-numeric rating data"

/-- map_column of BaseGoldTransformer: a value replace on a column that is
skipped when the column is absent. -/
def mapColumn (df : DataFrame) (c : String) (mapping : List (String × String)) :
    DataFrame :=
  if c ∈ df.cols then
    { df with rows := df.rows.map (fun r =>
        match cellOf r c with
        | .str s =>
            match mapping.lookup s with
            | some t => setCell r c (.str t)
            | none => r
        | _ => r) }
  else df

/-- DataFrame.rename of one column, a silent no-op when absent. -/
def renameColumn (df : DataFrame) (c c' : String) : DataFrame :=
  { cols := df.cols.map (fun x => if x = c then c' else x),
    rows := df.rows.map (fun r => r.map (fun p => if p.1 = c then (c', p.2) else p)) }

/-- BooksGoldTransformer.transform: the full Gold derivation chain in
source order: series extraction and title strip, author split, identifier
zero-padding and the combined checksum filter, publisher standardization,
book age, popularity score, and the language mapping and rename.  A bare
access of an absent column raises KeyError, as the pandas indexing would.
The processing year and the log1p function are explicit parameters. -/
def transform (todayYear : Int) (log1p : Rat → Rat)
    (langMap : List (String × String)) (df : DataFrame) :
    Except String DataFrame :=
  if "title" ∉ df.cols then .error "KeyError: title" else
  let df1 := setColumn df "series" (fun r => seriesOf (cellOf r "title"))
  let df2 := setColumn df1 "title" (fun r => titleStripped (cellOf r "title"))
  if "authors" ∉ df2.cols then .error "KeyError: authors" else
  let df3 := setColumn df2 "primary_author" (fun r => primaryAuthorOf (cellOf r "authors"))
  let df4 := setColumn df3 "all_authors" (fun r => allAuthorsOf (cellOf r "authors"))
  if "isbn" ∉ df4.cols then .error "KeyError: isbn" else
  if "isbn13" ∉ df4.cols then .error "KeyError: isbn13" else
  let df5 := setColumn df4 "isbn" (fun r => .str (zfill 10 (pyStr (cellOf r "isbn"))))
  let df6 := setColumn df5 "isbn13" (fun r => .str (zfill 13 (pyStr (cellOf r "isbn13"))))
  let df7 : DataFrame := { df6 with rows := df6.rows.filter isbnMaskOk }
  if "publisher" ∉ df7.cols then .error "KeyError: publisher" else
  match mapE cleanPublisherCell df7.rows with
  | .error e => .error e
  | .ok rows8 =>
    let df8 : DataFrame := { df7 with rows := rows8 }
    if "publication_date" ∉ df8.cols then .error "KeyError: publication_date" else
    let df9 := setColumn df8 "book_age" (fun r => bookAgeOf todayYear (cellOf r "publication_date"))
    if "average_rating" ∉ df9.cols then .error "KeyError: average_rating" else
    if "ratings_count" ∉ df9.cols then .error "KeyError: ratings_count" else
    match mapE (scoreCell log1p) df9.rows with
    | .error e => .error e
    | .ok rows10 =>
      let df10 : DataFrame :=
        { cols :=
            if "rating_popularity_score" ∈ df9.cols then df9.cols
            else df9.cols ++ ["rating_popularity_score"],
          rows := rows10 }
      .ok (renameColumn (mapColumn df10 "language_code" langMap) "language_code" "language")

/-! ### Orchestration driver (ingest_to_silver / ingest_to_gold loops) -/

/-- One manifest row as the driver sees it: the carried identity fields
collapsed to one key, plus the mutable status, counter and error fields. -/
structure MRow where
  key : String
  status : String
  rows_out : Option Nat
  error_msg : String
deriving DecidableEq, Repr

/-- The success update of a manifest row: SUCCESS status, the output row
count, a cleared error message. -/
def markSuccess (r : MRow) (n : Nat) : MRow :=
  { r with status := "SUCCESS", rows_out := some n, error_msg := "" }

/-- The failure update of a manifest row: FAILED status and the captured
exception message. -/
def markFailed (r : MRow) (e : String) : MRow :=
  { r with status := "FAILED", error_msg := e }

/-- One driver iteration on one manifest row (the try/except body shared by
ingest_to_silver and ingest_to_gold): a READY row is processed, marked
SUCCESS or FAILED from its own outcome, and contributes its downstream
manifest records (built by the down parameter) only on success; any other
row is left untouched and contributes nothing. -/
def processUnit {δ : Type} (process : MRow → Except String Nat)
    (down : MRow → Nat → List δ) (r : MRow) : MRow × List δ :=
  if r.status = "READY" then
    match process r with
    | .ok n => (markSuccess r n, down r n)
    | .error e => (markFailed r e, [])
  else (r, [])

/-- The sequential driver loop over the whole manifest, returning the
updated manifest (flushed once at the end) and the downstream manifest
records appended during the run, in order. -/
def processBatch {δ : Type} (process : MRow → Except String Nat)
    (down : MRow → Nat → List δ) : List MRow → List MRow × List δ
  | [] => ([], [])
  | r :: rs =>
      let u := processUnit process down r
      let rest := processBatch process down rs
      (u.1 :: rest.1, u.2 ++ rest.2)


/-! ## Lemmas about cells and rows -/

theorem cellOf_nil (c : String) : cellOf [] c = .null := rfl

theorem cellOf_cons (c c1 : String) (v : Value) (r : Row) :
    cellOf ((c1, v) :: r) c = if c = c1 then v else cellOf r c := by
  by_cases h : c = c1
  · simp [cellOf, List.lookup_cons, h]
  · simp [cellOf, List.lookup_cons, h, beq_false_of_ne h]

theorem setCell_cons (c c1 : String) (v v1 : Value) (r : Row) :
    setCell ((c1, v1) :: r) c v =
      if c1 = c then (c, v) :: r else (c1, v1) :: setCell r c v := rfl

theorem cellOf_setCell_self (c : String) (v : Value) :
    ∀ r : Row, cellOf (setCell r c v) c = v := by
  intro r
  induction r with
  | nil => simp [setCell, cellOf_cons]
  | cons p rest ih =>
      rcases p with ⟨c1, v1⟩
      by_cases h : c1 = c
      · simp [setCell_cons, h, cellOf_cons]
      · simp [setCell_cons, h, cellOf_cons, Ne.symm h, ih]

theorem cellOf_setCell_ne (c c1 : String) (v : Value) (h : c1 ≠ c) :
    ∀ r : Row, cellOf (setCell r c v) c1 = cellOf r c1 := by
  intro r
  induction r with
  | nil => simp [setCell, cellOf_nil, cellOf_cons, h]
  | cons p rest ih =>
      rcases p with ⟨c2, v2⟩
      by_cases h2 : c2 = c
      · subst h2
        simp [setCell_cons, cellOf_cons, h]
      · by_cases h3 : c1 = c2
        · simp [setCell_cons, h2, cellOf_cons, h3]
        · simp [setCell_cons, h2, cellOf_cons, h3, ih]

theorem setCell_keys (c : String) (v : Value) :
    ∀ r : Row, c ∈ r.map Prod.fst →
      (setCell r c v).map Prod.fst = r.map Prod.fst := by
  intro r
  induction r with
  | nil => simp
  | cons p rest ih =>
      rcases p with ⟨c2, v2⟩
      by_cases h2 : c2 = c
      · subst h2; simp [setCell_cons]
      · intro hmem
        have hr : c ∈ rest.map Prod.fst := by
          rcases List.mem_cons.mp hmem with h | h
          · exact absurd h.symm (by simpa using h2)
          · exact h
        simp [setCell_cons, h2, ih hr]

theorem setCell_self_of_mem (c : String) :
    ∀ r : Row, c ∈ r.map Prod.fst → setCell r c (cellOf r c) = r := by
  intro r
  induction r with
  | nil => simp
  | cons p rest ih =>
      rcases p with ⟨c2, v2⟩
      intro hmem
      by_cases h2 : c2 = c
      · subst h2
        simp [setCell_cons, cellOf_cons]
      · have hr : c ∈ rest.map Prod.fst := by
          rcases List.mem_cons.mp hmem with h | h
          · exact absurd h.symm (by simpa using h2)
          · exact h
        have hc : cellOf ((c2, v2) :: rest) c = cellOf rest c := by
          rw [cellOf_cons, if_neg (fun h => h2 (Eq.symm h))]
        simp [setCell_cons, h2, hc, ih hr]

/-! ## Lemmas about dedupByKey -/

theorem dedupByKey_sublist {β : Type} [DecidableEq β] (key : Row → β) :
    ∀ (l : List Row) (seen : List β), (dedupByKey key l seen).Sublist l := by
  intro l
  induction l with
  | nil => intro seen; simp [dedupByKey]
  | cons r rs ih =>
      intro seen
      simp only [dedupByKey]
      split
      · exact (ih seen).cons r
      · exact (ih _).cons₂ r

theorem dedupByKey_keys_nodup {β : Type} [DecidableEq β] (key : Row → β) :
    ∀ (l : List Row) (seen : List β),
      ((dedupByKey key l seen).map key).Nodup ∧
      ∀ b ∈ (dedupByKey key l seen).map key, b ∉ seen := by
  intro l
  induction l with
  | nil => intro seen; simp [dedupByKey]
  | cons r rs ih =>
      intro seen
      simp only [dedupByKey]
      split
      · exact ih seen
      · rename_i hnot
        obtain ⟨hnd, hout⟩ := ih (key r :: seen)
        refine ⟨?_, ?_⟩
        · simp only [List.map_cons, List.nodup_cons]
          refine ⟨?_, hnd⟩
          intro hmem
          exact (hout _ hmem) (List.mem_cons_self _ _)
        · intro b hb
          simp only [List.map_cons, List.mem_cons] at hb
          rcases hb with hb | hb
          · subst hb; exact hnot
          · intro hseen
            exact (hout _ hb) (List.mem_cons_of_mem _ hseen)

theorem dedupByKey_find? {β : Type} [DecidableEq β] (key : Row → β) (k : β) :
    ∀ (l : List Row) (seen : List β), k ∉ seen →
      (dedupByKey key l seen).find? (fun r => decide (key r = k)) =
        l.find? (fun r => decide (key r = k)) := by
  intro l
  induction l with
  | nil => intro seen _; simp [dedupByKey]
  | cons r rs ih =>
      intro seen hk
      simp only [dedupByKey]
      by_cases hmem : key r ∈ seen
      · rw [if_pos hmem]
        have hne : key r ≠ k := fun h => hk (h ▸ hmem)
        rw [List.find?_cons_of_neg _ (by simpa using hne)]
        exact ih seen hk
      · rw [if_neg hmem]
        by_cases hkey : key r = k
        · rw [List.find?_cons_of_pos _ (by simpa using hkey),
            List.find?_cons_of_pos _ (by simpa using hkey)]
        · rw [List.find?_cons_of_neg _ (by simpa using hkey),
            List.find?_cons_of_neg _ (by simpa using hkey)]
          refine ih _ ?_
          intro hmem2
          rcases List.mem_cons.mp hmem2 with h | h
          · exact hkey (Eq.symm h)
          · exact hk h

/-! ## Lemmas about the Except-valued combinators -/

theorem filterE_ok_sublist {α : Type} (p : α → Except String Bool) :
    ∀ (l l0 : List α), filterE p l = .ok l0 → l0.Sublist l := by
  intro l
  induction l with
  | nil => intro l0 h; simp only [filterE, Except.ok.injEq] at h; simp [← h]
  | cons x xs ih =>
      intro l0 h
      simp only [filterE] at h
      cases hp : p x with
      | error e => rw [hp] at h; cases h
      | ok b =>
          rw [hp] at h
          cases hrec : filterE p xs with
          | error e => rw [hrec] at h; cases h
          | ok r =>
              rw [hrec] at h
              simp only [Except.ok.injEq] at h
              subst h
              cases b with
              | true => simpa using (ih r hrec).cons₂ x
              | false => simpa using (ih r hrec).cons x

theorem mapE_ok_length {α β : Type} (f : α → Except String β) :
    ∀ (l : List α) (l0 : List β), mapE f l = .ok l0 → l0.length = l.length := by
  intro l
  induction l with
  | nil => intro l0 h; simp only [mapE, Except.ok.injEq] at h; simp [← h]
  | cons x xs ih =>
      intro l0 h
      simp only [mapE] at h
      cases hf : f x with
      | error e => rw [hf] at h; cases h
      | ok y =>
          rw [hf] at h
          cases hrec : mapE f xs with
          | error e => rw [hrec] at h; cases h
          | ok ys =>
              rw [hrec] at h
              simp only [Except.ok.injEq] at h
              subst h
              simp [ih ys hrec]

theorem mapE_ok_of_forall {α β : Type} (f : α → Except String β) (g : α → β) :
    ∀ l : List α, (∀ x ∈ l, f x = .ok (g x)) → mapE f l = .ok (l.map g) := by
  intro l
  induction l with
  | nil => intro _; simp [mapE]
  | cons x xs ih =>
      intro h
      have hx := h x (List.mem_cons_self _ _)
      have hxs := ih (fun y hy => h y (List.mem_cons_of_mem _ hy))
      simp [mapE, hx, hxs]

theorem mapE_ok_map {α β : Type} (f : α → Except String β) (g : α → β)
    (hg : ∀ x l0, f x = .ok l0 → l0 = g x) :
    ∀ (l : List α) (l0 : List β), mapE f l = .ok l0 → l0 = l.map g := by
  intro l
  induction l with
  | nil => intro l0 h; simp only [mapE, Except.ok.injEq] at h; simp [← h]
  | cons x xs ih =>
      intro l0 h
      simp only [mapE] at h
      cases hf : f x with
      | error e => rw [hf] at h; cases h
      | ok y =>
          rw [hf] at h
          cases hrec : mapE f xs with
          | error e => rw [hrec] at h; cases h
          | ok ys =>
              rw [hrec] at h
              simp only [Except.ok.injEq] at h
              subst h
              simp [hg x y hf, ih ys hrec]

theorem mapE_ok_forall {α β : Type} (f : α → Except String β) :
    ∀ (l : List α) (l2 : List β), mapE f l = .ok l2 → ∀ x ∈ l, ∃ y, f x = .ok y := by
  intro l
  induction l with
  | nil => intro l2 _ x hx; cases hx
  | cons a as ih =>
      intro l2 h x hx
      simp only [mapE] at h
      cases hf : f a with
      | error e => rw [hf] at h; cases h
      | ok y =>
          rw [hf] at h
          cases hrec : mapE f as with
          | error e => rw [hrec] at h; cases h
          | ok ys =>
              rcases List.mem_cons.mp hx with he | hmem
              · exact ⟨y, he ▸ hf⟩
              · exact ih ys hrec x hmem

theorem mapE_error_of_mem {α β : Type} (f : α → Except String β) (x : α) (e : String)
    (hx : f x = .error e) :
    ∀ l : List α, x ∈ l → ∃ e2, mapE f l = .error e2 := by
  intro l
  induction l with
  | nil => intro h; cases h
  | cons y ys ih =>
      intro hmem
      rcases List.mem_cons.mp hmem with h | h
      · subst h
        exact ⟨e, by simp [mapE, hx]⟩
      · cases hf : f y with
        | error e2 => exact ⟨e2, by simp [mapE, hf]⟩
        | ok w =>
            obtain ⟨e2, he2⟩ := ih h
            exact ⟨e2, by simp [mapE, hf, he2]⟩

theorem foldE_ok_of_forall {β : Type} (step : DataFrame → β → Except String DataFrame)
    (d : DataFrame) :
    ∀ l : List β, (∀ b ∈ l, step d b = .ok d) → foldE step d l = .ok d := by
  intro l
  induction l with
  | nil => intro _; simp [foldE]
  | cons b bs ih =>
      intro h
      have hb := h b (List.mem_cons_self _ _)
      have hbs := ih (fun y hy => h y (List.mem_cons_of_mem _ hy))
      simp [foldE, hb, hbs]

theorem foldE_ok_inv {β : Type} (P : DataFrame → DataFrame → Prop)
    (refl : ∀ d, P d d) (trans : ∀ a b c, P a b → P b c → P a c)
    (step : DataFrame → β → Except String DataFrame)
    (hstep : ∀ d b d2, step d b = .ok d2 → P d d2) :
    ∀ (l : List β) (d out : DataFrame), foldE step d l = .ok out → P d out := by
  intro l
  induction l with
  | nil =>
      intro d out h
      simp only [foldE, Except.ok.injEq] at h
      exact h ▸ refl d
  | cons b bs ih =>
      intro d out h
      simp only [foldE] at h
      cases hs : step d b with
      | error e => rw [hs] at h; cases h
      | ok d2 =>
          rw [hs] at h
          exact trans _ _ _ (hstep d b d2 hs) (ih d2 out h)


/-! ## Generic fold lemmas over dataframes -/

theorem foldl_cols {β : Type} (step : DataFrame → β → DataFrame)
    (hstep : ∀ d b, (step d b).cols = d.cols) :
    ∀ (l : List β) (d : DataFrame), (l.foldl step d).cols = d.cols := by
  intro l
  induction l with
  | nil => intro d; rfl
  | cons b bs ih => intro d; rw [List.foldl_cons, ih, hstep]

theorem foldl_rows_le {β : Type} (step : DataFrame → β → DataFrame)
    (hstep : ∀ d b, (step d b).rows.length ≤ d.rows.length) :
    ∀ (l : List β) (d : DataFrame), (l.foldl step d).rows.length ≤ d.rows.length := by
  intro l
  induction l with
  | nil => intro d; exact le_refl _
  | cons b bs ih =>
      intro d
      rw [List.foldl_cons]
      exact le_trans (ih (step d b)) (hstep d b)

/-! ## The regex stage (claim C6) -/

theorem regexStep_cols (d : DataFrame) (rule : RegexRule) :
    (regexStep d rule).cols = d.cols := by
  unfold regexStep; split <;> rfl

theorem regexStep_mem (d : DataFrame) (rule : RegexRule) (r : Row) :
    r ∈ (regexStep d rule).rows ↔
      r ∈ d.rows ∧ (rule.col ∈ d.cols →
        matchStart rule.pattern (pyStr (cellOf r rule.col)).toList = true) := by
  unfold regexStep
  by_cases h : rule.col ∈ d.cols
  · simp [h, List.mem_filter]
  · simp [h]

theorem regexFold_mem :
    ∀ (l : List RegexRule) (df : DataFrame) (r : Row),
      r ∈ (l.foldl regexStep df).rows ↔
        r ∈ df.rows ∧ ∀ rule ∈ l, rule.col ∈ df.cols →
          matchStart rule.pattern (pyStr (cellOf r rule.col)).toList = true := by
  intro l
  induction l with
  | nil => intro df r; simp
  | cons rule rest ih =>
      intro df r
      rw [List.foldl_cons, ih, regexStep_mem]
      have hc := regexStep_cols df rule
      constructor
      · rintro ⟨⟨hr, hhead⟩, hrest⟩
        refine ⟨hr, ?_⟩
        intro rule2 hmem
        rcases List.mem_cons.mp hmem with h | h
        · exact h ▸ hhead
        · intro hcol
          exact hrest rule2 h (hc ▸ hcol)
      · rintro ⟨hr, hall⟩
        refine ⟨⟨hr, hall rule (List.mem_cons_self _ _)⟩, ?_⟩
        intro rule2 h hcol
        exact hall rule2 (List.mem_cons_of_mem _ h) (hc ▸ hcol)

/-- C6 (amended): for every configured regex rule whose target column is
present, apply_regex keeps exactly the rows whose string representation
matches the pattern at the START of the string (Python re.match as used by
Series.str.match), not a full match: a row survives the stage exactly when
every applicable rule start-matches its cell. -/
theorem apply_regex_keeps_start_matches (rules : FlexRules) (df : DataFrame) (r : Row) :
    r ∈ (apply_regex rules df).rows ↔
      r ∈ df.rows ∧ ∀ rule ∈ rules.regex, rule.col ∈ df.cols →
        matchStart rule.pattern (pyStr (cellOf r rule.col)).toList = true :=
  regexFold_mem rules.regex df r

/-- A one-rule bundle whose pattern is the single literal a. -/
def regexDemoRules : FlexRules :=
  { FlexRules.empty with regex := [⟨"c", RE.chr 'a'⟩] }

/-- A one-row frame whose cell ab does NOT fully match the pattern a. -/
def regexDemoDF : DataFrame := ⟨["c"], [[("c", Value.str "ab")]]⟩

/-- C6 (counterexample): the claim says apply_regex drops every row whose
string representation does not fully match the pattern; but on the pattern
a and the cell ab — which does not fully match — the row is KEPT, because
Series.str.match only anchors at the start. -/
theorem apply_regex_not_fullmatch :
    [("c", Value.str "ab")] ∈ (apply_regex regexDemoRules regexDemoDF).rows ∧
    matchFull (RE.chr 'a') (pyStr (cellOf [("c", Value.str "ab")] "c")).toList = false := by
  constructor
  · decide
  · decide

/-! ## The pipeline stage order (claim C3) -/

/-- C3 (counterexample): the claimed order — defaults before the null
check, defaults before ranges and regex, coercion before ranges — is false
of the fixed chain of ingest_to_silver, because apply_defaults runs AFTER
validate_non_nulls (position 4 versus position 1 in silverOrder, the fold
order of runSilverPipeline). -/
theorem silver_order_claim_false :
    ¬ (silverOrder.indexOf SStage.defaults < silverOrder.indexOf SStage.nonNull ∧
       silverOrder.indexOf SStage.defaults < silverOrder.indexOf SStage.ranges ∧
       silverOrder.indexOf SStage.defaults < silverOrder.indexOf SStage.regex ∧
       silverOrder.indexOf SStage.dtype < silverOrder.indexOf SStage.ranges) := by
  decide

/-- C3 (amended): in the fixed stage order of ingest_to_silver the
default-fill stage runs after the non-null check but before the range and
regex checks, and datatype coercion precedes the range checks. -/
theorem silver_order_amended :
    silverOrder.indexOf SStage.nonNull < silverOrder.indexOf SStage.defaults ∧
    silverOrder.indexOf SStage.defaults < silverOrder.indexOf SStage.ranges ∧
    silverOrder.indexOf SStage.defaults < silverOrder.indexOf SStage.regex ∧
    silverOrder.indexOf SStage.dtype < silverOrder.indexOf SStage.ranges := by
  decide

/-! ## The ISBN-10 checksum (claim C7) -/

/-- C7: the ISBN-10 validator accepts the known valid code 0306406152 and
rejects its single-digit mutation 0306406153, as claimed; but it also
rejects 000000006X, whose computed check value is 10 with final character
X — the ten-digit regex gate rejects any code ending in X, so the X branch
of the comparison is unreachable and the claimed X-sentinel acceptance
fails (the code contradicts its own X-sentinel intent). -/
theorem isbn10_checksum_eval :
    validate_isbn10_checksum "0306406152" = true ∧
    validate_isbn10_checksum "0306406153" = false ∧
    validate_isbn10_checksum "000000006X" = false := by
  refine ⟨?_, ?_, ?_⟩ <;> decide

/-! ## Publisher standardization (claim C8) -/

/-- C8 (counterexample): clean_publisher_name does NOT map the input
Random House, Inc. to Random House — no punctuation normalization happens
before the suffix match, so the comma survives. -/
theorem clean_publisher_no_comma_strip :
    clean_publisher_name "Random House, Inc." ≠ "Random House" := by
  decide

/-- C8 (amended): clean_publisher_name lowercases, strips the trailing
suffix token inc. together with the whitespace before it, and title-cases
the remainder — producing Random House, with the trailing comma kept. -/
theorem clean_publisher_random_house :
    clean_publisher_name "Random House, Inc." = "Random House," := by
  decide


/-! ## Row-count monotonicity of every stage (claim C1) -/

/-- One stage step shrinks a frame: the schema is unchanged and the row
count does not grow. -/
def Shrinks (a b : DataFrame) : Prop :=
  b.cols = a.cols ∧ b.rows.length ≤ a.rows.length

theorem Shrinks.refl (d : DataFrame) : Shrinks d d := ⟨rfl, le_refl _⟩

theorem Shrinks.trans {a b c : DataFrame} (h1 : Shrinks a b) (h2 : Shrinks b c) :
    Shrinks a c :=
  ⟨h2.1.trans h1.1, h2.2.trans h1.2⟩

theorem foldE_shrinks {β : Type} (step : DataFrame → β → Except String DataFrame)
    (hstep : ∀ d b d2, step d b = .ok d2 → Shrinks d d2) (l : List β)
    (d out : DataFrame) (h : foldE step d l = .ok out) : Shrinks d out :=
  foldE_ok_inv Shrinks Shrinks.refl (fun _ _ _ => Shrinks.trans) step hstep l d out h

theorem foldl_shrinks {β : Type} (step : DataFrame → β → DataFrame)
    (hstep : ∀ d b, Shrinks d (step d b)) :
    ∀ (l : List β) (d : DataFrame), Shrinks d (l.foldl step d) := by
  intro l
  induction l with
  | nil => intro d; exact Shrinks.refl d
  | cons b bs ih =>
      intro d
      rw [List.foldl_cons]
      exact (hstep d b).trans (ih (step d b))

theorem validate_primary_keys_shrinks (meta : List MetaRow) (df out : DataFrame)
    (h : validate_primary_keys meta df = .ok out) : Shrinks df out := by
  unfold validate_primary_keys at h
  simp only [] at h
  split at h
  · cases h; exact Shrinks.refl df
  · split at h
    · cases h
      refine ⟨rfl, ?_⟩
      refine le_trans (List.Sublist.length_le (dedupByKey_sublist _ _ _)) ?_
      exact List.length_filter_le _ _
    · cases h

theorem validate_non_nulls_shrinks (meta : List MetaRow) (df out : DataFrame)
    (h : validate_non_nulls meta df = .ok out) : Shrinks df out := by
  unfold validate_non_nulls at h
  simp only [] at h
  split at h
  · cases h; exact Shrinks.refl df
  · split at h
    · cases h
      exact ⟨rfl, List.length_filter_le _ _⟩
    · cases h

theorem uniqStep_shrinks (d : DataFrame) (c : String) (d2 : DataFrame)
    (h : uniqStep d c = .ok d2) : Shrinks d d2 := by
  unfold uniqStep at h
  split at h
  · cases h
    exact ⟨rfl, List.Sublist.length_le (dedupByKey_sublist _ _ _)⟩
  · cases h

theorem validate_unique_shrinks (meta : List MetaRow) (df out : DataFrame)
    (h : validate_unique meta df = .ok out) : Shrinks df out :=
  foldE_shrinks uniqStep uniqStep_shrinks (uniqCols meta) df out h

theorem applyDtypeStage_shrinks (df : DataFrame) (m : MetaRow) (d2 : DataFrame)
    (h : applyDtypeStage df m = .ok d2) : Shrinks df d2 := by
  unfold applyDtypeStage at h
  simp only [] at h
  split at h
  · split at h
    · rename_i rows hmap
      cases h
      refine ⟨rfl, ?_⟩
      rw [mapE_ok_length _ _ _ hmap]
      exact List.length_filter_le _ _
    · cases h
  · cases h; exact Shrinks.refl df

theorem validate_datatype_shrinks (meta : List MetaRow) (df out : DataFrame)
    (h : validate_datatype meta df = .ok out) : Shrinks df out :=
  foldE_shrinks applyDtypeStage applyDtypeStage_shrinks meta df out h

theorem defaultStep_shrinks (d : DataFrame) (p : String × Value) :
    Shrinks d (defaultStep d p) := by
  unfold defaultStep
  split
  · exact ⟨rfl, by simp⟩
  · exact Shrinks.refl d

theorem mappingStep_shrinks (d : DataFrame) (p : String × List (Value × Value)) :
    Shrinks d (mappingStep d p) := by
  unfold mappingStep
  simp only []
  split
  · exact ⟨rfl, by simp⟩
  · exact Shrinks.refl d

theorem regexStep_shrinks (d : DataFrame) (rule : RegexRule) :
    Shrinks d (regexStep d rule) := by
  unfold regexStep
  split
  · exact ⟨rfl, List.length_filter_le _ _⟩
  · exact Shrinks.refl d

theorem rangeStep_shrinks (today : Value) (d : DataFrame) (rule : RangeRule)
    (d2 : DataFrame) (h : rangeStep today d rule = .ok d2) : Shrinks d d2 := by
  unfold rangeStep at h
  split at h
  · split at h
    · split at h
      · cases h
      · rename_i rows hrows
        cases h
        exact ⟨rfl, List.Sublist.length_le (filterE_ok_sublist _ _ _ hrows)⟩
    · split at h
      · cases h
      · rename_i rows1 hrows1
        split at h
        · cases h
        · rename_i rows2 hrows2
          cases h
          refine ⟨rfl, ?_⟩
          have h1 : rows1.length ≤ d.rows.length := by
            split at hrows1
            · exact List.Sublist.length_le (filterE_ok_sublist _ _ _ hrows1)
            · cases hrows1; exact le_refl _
          have h2 : rows2.length ≤ rows1.length := by
            split at hrows2
            · exact List.Sublist.length_le (filterE_ok_sublist _ _ _ hrows2)
            · cases hrows2; exact le_refl _
          exact h2.trans h1
  · cases h; exact Shrinks.refl d

theorem udfStep_shrinks (d : DataFrame) (rule : CustomRule) (d2 : DataFrame)
    (h : udfStep d rule = .ok d2) : Shrinks d d2 := by
  unfold udfStep at h
  split at h
  · split at h
    · split at h
      · cases h
      · rename_i rows hrows
        cases h
        exact ⟨rfl, List.Sublist.length_le (filterE_ok_sublist _ _ _ hrows)⟩
    · cases h; exact Shrinks.refl d
  · cases h; exact Shrinks.refl d

theorem runStage_shrinks (today : Value) (meta : List MetaRow) (rules : FlexRules)
    (s : SStage) (d d2 : DataFrame) (h : runStage today meta rules s d = .ok d2) :
    Shrinks d d2 := by
  cases s with
  | pk => exact validate_primary_keys_shrinks meta d d2 h
  | nonNull => exact validate_non_nulls_shrinks meta d d2 h
  | uniq => exact validate_unique_shrinks meta d d2 h
  | dtype => exact validate_datatype_shrinks meta d d2 h
  | defaults =>
      cases h
      exact foldl_shrinks defaultStep defaultStep_shrinks rules.defaults d
  | mappings =>
      cases h
      exact foldl_shrinks mappingStep mappingStep_shrinks rules.mappings d
  | ranges => exact foldE_shrinks (rangeStep today) (rangeStep_shrinks today) rules.ranges d d2 h
  | regex =>
      cases h
      exact foldl_shrinks regexStep regexStep_shrinks rules.regex d
  | udfs => exact foldE_shrinks udfStep udfStep_shrinks rules.custom_checks d d2 h

/-- C1: for every raw frame, metadata and rule bundle, when the Silver
cleaning pipeline of ingest_to_silver completes, the cleaned frame has at
most as many rows as the raw input: no stage — primary-key filter,
non-null filter, uniqueness, coercion, defaults, mappings, ranges, regex,
custom predicates — ever adds a row. -/
theorem silver_rows_out_le_rows_in (today : Value) (meta : List MetaRow)
    (rules : FlexRules) (df out : DataFrame)
    (h : runSilverPipeline today meta rules df = .ok out) :
    out.rows.length ≤ df.rows.length :=
  (foldE_shrinks (fun d s => runStage today meta rules s d)
    (fun d s d2 hh => runStage_shrinks today meta rules s d d2 hh)
    silverOrder df out h).2


/-- A three-row sample frame for the pipeline witness: a duplicate key and
a null key. -/
def sampleRawDF : DataFrame :=
  ⟨["id"], [[("id", Value.int 3)], [("id", Value.int 3)], [("id", Value.null)]]⟩

/-- Witness for C1: on a concrete three-row frame with an integer primary
key the pipeline succeeds with one row, and the theorem applies. -/
theorem silver_rows_out_le_rows_in_witness :
    runSilverPipeline (Value.date 2026 1 1) [MetaRow.mk "id" 1 0 0 "int"]
        FlexRules.empty sampleRawDF =
      .ok (DataFrame.mk ["id"] [[("id", Value.int 3)]]) ∧
    (DataFrame.mk ["id"] [[("id", Value.int 3)]]).rows.length ≤ sampleRawDF.rows.length :=
  ⟨by decide, silver_rows_out_le_rows_in (Value.date 2026 1 1)
    [MetaRow.mk "id" 1 0 0 "int"] FlexRules.empty sampleRawDF
    (DataFrame.mk ["id"] [[("id", Value.int 3)]]) (by decide)⟩


/-! ## The primary-key filter specification (claim C2) -/

/-- The contract of the primary-key filter: a no-op without declared key
columns; otherwise every output row is non-null on every key column, the
key tuples of the output are pairwise distinct, the output rows are a
subsequence of the input, and for every key tuple the output retains
exactly the FIRST input row carrying it among the rows that pass the
null filter. -/
def PKFilterSpec (meta : List MetaRow) (df out : DataFrame) : Prop :=
  (pkCols meta = [] → out = df) ∧
  (∀ r ∈ out.rows, ∀ c ∈ pkCols meta, (cellOf r c).isNull = false) ∧
  out.rows.Sublist df.rows ∧
  (pkCols meta ≠ [] →
    (out.rows.map (keyOf (pkCols meta))).Nodup ∧
    ∀ k : List Value,
      out.rows.find? (fun r => decide (keyOf (pkCols meta) r = k)) =
        (df.rows.filter
          (fun r => (pkCols meta).all (fun c => !(cellOf r c).isNull))).find?
          (fun r => decide (keyOf (pkCols meta) r = k)))

/-- C2: whenever validate_primary_keys succeeds, its output satisfies the
primary-key filter contract: declared-key tuples in the output are
non-null and occur exactly once, the first occurrence of each duplicate
tuple is the one kept, and with no declared key the frame is unchanged. -/
theorem validate_primary_keys_spec (meta : List MetaRow) (df out : DataFrame)
    (h : validate_primary_keys meta df = .ok out) : PKFilterSpec meta df out := by
  unfold validate_primary_keys at h
  simp only [] at h
  split at h
  · rename_i hempty
    cases h
    have hpk : pkCols meta = [] := List.isEmpty_iff.mp hempty
    refine ⟨fun _ => rfl, ?_, List.Sublist.refl _, fun hne => absurd hpk hne⟩
    intro r _ c hc
    rw [hpk] at hc
    cases hc
  · rename_i hempty
    have hne : pkCols meta ≠ [] := by
      intro h0
      exact hempty (by simp [h0])
    split at h
    · cases h
      refine ⟨fun h0 => absurd h0 hne, ?_, ?_, ?_⟩
      · intro r hr c hc
        have hkept := (dedupByKey_sublist (keyOf (pkCols meta)) _ []).mem hr
        have := (List.mem_filter.mp hkept).2
        have hall := List.all_eq_true.mp this c hc
        simpa using hall
      · exact (dedupByKey_sublist _ _ _).trans (List.filter_sublist _)
      · intro _
        refine ⟨(dedupByKey_keys_nodup (keyOf (pkCols meta)) _ []).1, ?_⟩
        intro k
        exact dedupByKey_find? (keyOf (pkCols meta)) k _ [] (List.not_mem_nil k)
    · cases h

/-- Witness for C2: the contract holds on a concrete frame with one null
key and one duplicated key. -/
theorem validate_primary_keys_spec_witness :
    validate_primary_keys [MetaRow.mk "id" 1 0 0 "int"] sampleRawDF =
      .ok (DataFrame.mk ["id"] [[("id", Value.int 3)]]) ∧
    PKFilterSpec [MetaRow.mk "id" 1 0 0 "int"] sampleRawDF
      (DataFrame.mk ["id"] [[("id", Value.int 3)]]) :=
  ⟨by decide, validate_primary_keys_spec _ _ _ (by decide)⟩


/-! ## Driver failure isolation (claim C9) -/

theorem processBatch_fst {δ : Type} (process : MRow → Except String Nat)
    (down : MRow → Nat → List δ) :
    ∀ l : List MRow,
      (processBatch process down l).1 = l.map (fun r => (processUnit process down r).1) := by
  intro l
  induction l with
  | nil => rfl
  | cons r rs ih => simp [processBatch, ih]

theorem processBatch_snd {δ : Type} (process : MRow → Except String Nat)
    (down : MRow → Nat → List δ) :
    ∀ l : List MRow,
      (processBatch process down l).2 = l.flatMap (fun r => (processUnit process down r).2) := by
  intro l
  induction l with
  | nil => rfl
  | cons r rs ih => simp [processBatch, ih]

/-- C9: when processing one READY manifest row raises, only that row is
marked FAILED with the raised message, that unit contributes nothing to
the downstream manifest (which is exactly the concatenation of the
per-unit contributions), and every other row of the batch is still
processed according to its own outcome. -/
theorem driver_failure_isolation {δ : Type} (process : MRow → Except String Nat)
    (down : MRow → Nat → List δ) (manifest : List MRow) (i : Nat) (r0 : MRow)
    (e : String) (h0 : manifest[i]? = some r0) (hready : r0.status = "READY")
    (herr : process r0 = .error e) :
    (processBatch process down manifest).1[i]? = some (markFailed r0 e) ∧
    processUnit process down r0 = (markFailed r0 e, ([] : List δ)) ∧
    (processBatch process down manifest).2 =
      manifest.flatMap (fun r => (processUnit process down r).2) ∧
    (∀ j, j ≠ i →
      (processBatch process down manifest).1[j]? =
        (manifest[j]?).map (fun r => (processUnit process down r).1)) := by
  have hunit : processUnit process down r0 = (markFailed r0 e, ([] : List δ)) := by
    simp [processUnit, hready, herr]
  refine ⟨?_, hunit, processBatch_snd process down manifest, ?_⟩
  · rw [processBatch_fst, List.getElem?_map, h0]
    simp [hunit]
  · intro j _
    rw [processBatch_fst, List.getElem?_map]

/-- A two-row READY manifest for the driver witness. -/
def sampleManifest : List MRow :=
  [MRow.mk "books.csv" "READY" none "", MRow.mk "authors.csv" "READY" none ""]

/-- The witness process function: the first file raises, the second
succeeds with five rows. -/
def sampleProcess (r : MRow) : Except String Nat :=
  if r.key = "books.csv" then .error "boom" else .ok 5

/-- The witness downstream-record builder. -/
def sampleDown (r : MRow) (n : Nat) : List (String × Nat) := [(r.key, n)]

/-- Witness for C9: the failure-isolation theorem applied to a concrete
two-row batch whose first row raises. -/
theorem driver_failure_isolation_witness :
    sampleManifest[0]? = some (MRow.mk "books.csv" "READY" none "") ∧
    (MRow.mk "books.csv" "READY" none "").status = "READY" ∧
    sampleProcess (MRow.mk "books.csv" "READY" none "") = .error "boom" ∧
    ((processBatch sampleProcess sampleDown sampleManifest).1[0]? =
        some (markFailed (MRow.mk "books.csv" "READY" none "") "boom") ∧
      processUnit sampleProcess sampleDown (MRow.mk "books.csv" "READY" none "") =
        (markFailed (MRow.mk "books.csv" "READY" none "") "boom", ([] : List (String × Nat))) ∧
      (processBatch sampleProcess sampleDown sampleManifest).2 =
        sampleManifest.flatMap (fun r => (processUnit sampleProcess sampleDown r).2) ∧
      (∀ j, j ≠ 0 →
        (processBatch sampleProcess sampleDown sampleManifest).1[j]? =
          (sampleManifest[j]?).map (fun r => (processUnit sampleProcess sampleDown r).1))) :=
  ⟨by decide, by decide, by decide,
    driver_failure_isolation sampleProcess sampleDown sampleManifest 0
      (MRow.mk "books.csv" "READY" none "") "boom" (by decide) (by decide) (by decide)⟩


/-! ## Datatype coercion characterization (claim C4) -/

/-- Whether any declared typed column that is present in the data makes
the coercion loop drop this row: a declared cell fails its coercion while
being non-null (the string fallback never drops). -/
def dropsRow (meta : List MetaRow) (cols : List String) (r : Row) : Bool :=
  meta.any (fun m =>
    decide (m.column_name ∈ cols) && dtypeDrops (dtypeKind m.dtype) (cellOf r m.column_name))

/-- The coerced value of one declared cell, reading the successful branch
of the cast (the error branch, which aborts the whole stage, is mapped to
missing and never reached on a run that succeeded). -/
def coerceVal (k : DKind) (v : Value) : Value :=
  match dtypeCast k v with
  | .ok w => w
  | .error _ => .null

/-- The full per-row rewrite of the coercion loop: every declared column
present in the data is overwritten by its coerced value, in metadata
order. -/
def coerceRow (meta : List MetaRow) (cols : List String) (r : Row) : Row :=
  meta.foldl
    (fun r m =>
      if m.column_name ∈ cols then
        setCell r m.column_name (coerceVal (dtypeKind m.dtype) (cellOf r m.column_name))
      else r)
    r

theorem any_congr {α : Type} (l : List α) (p q : α → Bool)
    (h : ∀ a ∈ l, p a = q a) : l.any p = l.any q := by
  induction l with
  | nil => rfl
  | cons x xs ih =>
      simp only [List.any_cons, h x (List.mem_cons_self _ _)]
      rw [ih (fun a ha => h a (List.mem_cons_of_mem _ ha))]

theorem dropsRow_congr (rest : List MetaRow) (cols : List String) (r r2 : Row)
    (h : ∀ m ∈ rest, cellOf r2 m.column_name = cellOf r m.column_name) :
    dropsRow rest cols r2 = dropsRow rest cols r := by
  unfold dropsRow
  exact any_congr rest _ _ (fun m hm => by rw [h m hm])

theorem applyDtypeStage_char (df : DataFrame) (m : MetaRow) (mid : DataFrame)
    (h : applyDtypeStage df m = .ok mid) :
    mid.cols = df.cols ∧
    mid.rows =
      (df.rows.filter (fun r =>
        !(decide (m.column_name ∈ df.cols) &&
          dtypeDrops (dtypeKind m.dtype) (cellOf r m.column_name)))).map
        (fun r =>
          if m.column_name ∈ df.cols then
            setCell r m.column_name (coerceVal (dtypeKind m.dtype) (cellOf r m.column_name))
          else r) := by
  unfold applyDtypeStage at h
  simp only [] at h
  split at h
  · rename_i hc
    split at h
    · rename_i rows hmap
      cases h
      refine ⟨rfl, ?_⟩
      have hrows := mapE_ok_map (castCell (dtypeKind m.dtype) m.column_name)
        (fun r => setCell r m.column_name
          (coerceVal (dtypeKind m.dtype) (cellOf r m.column_name)))
        (by
          intro x y hx
          unfold castCell at hx
          split at hx
          · cases hx
          · rename_i w hw
            cases hx
            have hcv : coerceVal (dtypeKind m.dtype) (cellOf x m.column_name) = w := by
              unfold coerceVal
              rw [hw]
            show setCell x m.column_name w = setCell x m.column_name
              (coerceVal (dtypeKind m.dtype) (cellOf x m.column_name))
            rw [hcv])
        _ _ hmap
      show rows = _
      rw [hrows]
      have hpred : df.rows.filter (fun r =>
          !(decide (m.column_name ∈ df.cols) &&
            dtypeDrops (dtypeKind m.dtype) (cellOf r m.column_name))) =
          df.rows.filter (fun r => !dtypeDrops (dtypeKind m.dtype) (cellOf r m.column_name)) :=
        List.filter_congr (fun r _ => by simp [hc])
      rw [hpred]
      refine List.map_congr_left ?_
      intro r _
      rw [if_pos hc]
    · cases h
  · rename_i hc
    cases h
    refine ⟨rfl, ?_⟩
    show df.rows = _
    have hpred : df.rows.filter (fun r =>
        !(decide (m.column_name ∈ df.cols) &&
          dtypeDrops (dtypeKind m.dtype) (cellOf r m.column_name))) = df.rows :=
      List.filter_eq_self.mpr (fun r _ => by simp [hc])
    rw [hpred]
    have hmap : ∀ r ∈ df.rows, (if m.column_name ∈ df.cols then
        setCell r m.column_name (coerceVal (dtypeKind m.dtype) (cellOf r m.column_name))
        else r) = r := fun r _ => by rw [if_neg hc]
    calc df.rows = df.rows.map id := (List.map_id df.rows).symm
    _ = _ := (List.map_congr_left (fun r hr => (hmap r hr).symm))

theorem validate_datatype_char (meta : List MetaRow) :
    ∀ (df out : DataFrame),
      (meta.map (fun m => m.column_name)).Nodup →
      validate_datatype meta df = .ok out →
      out.cols = df.cols ∧
      out.rows = (df.rows.filter (fun r => !dropsRow meta df.cols r)).map
        (coerceRow meta df.cols) := by
  induction meta with
  | nil =>
      intro df out _ h
      simp only [validate_datatype, foldE, Except.ok.injEq] at h
      subst h
      refine ⟨rfl, ?_⟩
      have h1 : df.rows.filter (fun r => !dropsRow [] df.cols r) = df.rows :=
        List.filter_eq_self.mpr (fun r _ => by simp [dropsRow])
      rw [h1]
      calc df.rows = df.rows.map id := (List.map_id df.rows).symm
      _ = _ := List.map_congr_left (fun r _ => rfl)
  | cons m rest ih =>
      intro df out hnd h
      simp only [validate_datatype, foldE] at h
      rcases hstage : applyDtypeStage df m with e | mid
      · rw [hstage] at h; cases h
      · rw [hstage] at h
        have h2 : validate_datatype rest mid = .ok out := h
        have hndr : (rest.map (fun m => m.column_name)).Nodup :=
          (List.nodup_cons.mp (by simpa using hnd)).2
        have hhead : m.column_name ∉ rest.map (fun m => m.column_name) :=
          (List.nodup_cons.mp (by simpa using hnd)).1
        obtain ⟨hcols1, hrows1⟩ := applyDtypeStage_char df m mid hstage
        obtain ⟨hcols2, hrows2⟩ := ih mid out hndr h2
        refine ⟨hcols2.trans hcols1, ?_⟩
        have hcell : ∀ (r : Row), ∀ m2 ∈ rest,
            cellOf ((fun r =>
              if m.column_name ∈ df.cols then
                setCell r m.column_name
                  (coerceVal (dtypeKind m.dtype) (cellOf r m.column_name))
              else r) r) m2.column_name = cellOf r m2.column_name := by
          intro r m2 hm2
          have hne : m2.column_name ≠ m.column_name := by
            intro he
            exact hhead (he ▸ List.mem_map_of_mem (fun m => m.column_name) hm2)
          simp only []
          split
          · exact cellOf_setCell_ne _ _ _ hne r
          · rfl
        rw [hrows2, hcols1, hrows1, List.filter_map, List.map_map, List.filter_filter]
        have hpeq : ∀ r ∈ df.rows,
            ((!dropsRow rest df.cols
                (if m.column_name ∈ df.cols then
                  setCell r m.column_name
                    (coerceVal (dtypeKind m.dtype) (cellOf r m.column_name))
                else r)) &&
              !(decide (m.column_name ∈ df.cols) &&
                  dtypeDrops (dtypeKind m.dtype) (cellOf r m.column_name))) =
            !dropsRow (m :: rest) df.cols r := by
          intro r _
          have hdc : dropsRow rest df.cols
              (if m.column_name ∈ df.cols then
                setCell r m.column_name
                  (coerceVal (dtypeKind m.dtype) (cellOf r m.column_name))
              else r) = dropsRow rest df.cols r :=
            dropsRow_congr rest df.cols r _
              (fun m2 hm2 => by simpa using hcell r m2 hm2)
          rw [hdc]
          simp only [dropsRow, List.any_cons, Bool.not_or]
          exact Bool.and_comm _ _
        have hfun : ∀ r ∈ df.rows.filter (fun r => !dropsRow (m :: rest) df.cols r),
            ((coerceRow rest df.cols) ∘ (fun r =>
              if m.column_name ∈ df.cols then
                setCell r m.column_name
                  (coerceVal (dtypeKind m.dtype) (cellOf r m.column_name))
              else r)) r = coerceRow (m :: rest) df.cols r := by
          intro r _
          simp only [Function.comp, coerceRow, List.foldl_cons]
        exact (congrArg _ (List.filter_congr hpeq)).trans (List.map_congr_left hfun)


/-- C4: whenever the coercion loop succeeds on metadata with distinct
declared columns, the output columns are unchanged and the output rows are
exactly the input rows that no declared typed present column drops — a row
is dropped if and only if some declared column's cell fails its coercion
while being non-null (dtypeDrops; a cell that was already null never
drops, and the string fallback never drops) — each surviving row rewritten
to its coerced cells; and every declared column absent from the data makes
its stage a skipping no-op that returns the frame unchanged without
error. -/
theorem validate_datatype_spec (meta : List MetaRow) (df out : DataFrame)
    (hnd : (meta.map (fun m => m.column_name)).Nodup)
    (h : validate_datatype meta df = .ok out) :
    out.cols = df.cols ∧
    out.rows = (df.rows.filter (fun r => !dropsRow meta df.cols r)).map
      (coerceRow meta df.cols) ∧
    ∀ m ∈ meta, m.column_name ∉ df.cols → applyDtypeStage df m = .ok df := by
  obtain ⟨h1, h2⟩ := validate_datatype_char meta df out hnd h
  refine ⟨h1, h2, ?_⟩
  intro m _ hnotin
  unfold applyDtypeStage
  simp only []
  rw [if_neg hnotin]

/-- The metadata for the coercion witness: one integer column present in
the data, one float column absent from it. -/
def sampleDtypeMeta : List MetaRow :=
  [MetaRow.mk "n" 0 0 0 "int", MetaRow.mk "ghost" 0 0 0 "float"]

/-- The frame for the coercion witness: a coercible string, an
uncoercible non-null string, and a null. -/
def sampleDtypeDF : DataFrame :=
  ⟨["n"], [[("n", Value.str "12")], [("n", Value.str "abc")], [("n", Value.null)]]⟩

/-- Witness for C4: on the concrete frame the uncoercible non-null row is
dropped, the null row is kept, the absent column is skipped, and the
characterization theorem applies. -/
theorem validate_datatype_spec_witness :
    (sampleDtypeMeta.map (fun m => m.column_name)).Nodup ∧
    validate_datatype sampleDtypeMeta sampleDtypeDF =
      .ok (DataFrame.mk ["n"] [[("n", Value.int 12)], [("n", Value.null)]]) ∧
    ((DataFrame.mk ["n"] [[("n", Value.int 12)], [("n", Value.null)]]).cols =
        sampleDtypeDF.cols ∧
      (DataFrame.mk ["n"] [[("n", Value.int 12)], [("n", Value.null)]]).rows =
        (sampleDtypeDF.rows.filter
          (fun r => !dropsRow sampleDtypeMeta sampleDtypeDF.cols r)).map
          (coerceRow sampleDtypeMeta sampleDtypeDF.cols) ∧
      ∀ m ∈ sampleDtypeMeta, m.column_name ∉ sampleDtypeDF.cols →
        applyDtypeStage sampleDtypeDF m = .ok sampleDtypeDF) :=
  ⟨by decide, by decide,
    validate_datatype_spec sampleDtypeMeta sampleDtypeDF
      (DataFrame.mk ["n"] [[("n", Value.int 12)], [("n", Value.null)]])
      (by decide) (by decide)⟩


/-! ## Idempotence of datatype coercion (claim C5) -/

theorem parseNumSigned_shape (neg : Bool) (body : List Char) (u : Value)
    (h : parseNumSigned neg body = some u) :
    (∃ n, u = .int n) ∨ (∃ q, u = .float q) := by
  unfold parseNumSigned at h
  split at h
  · rename_i ip heq
    cases hd : parseDigits? ip with
    | none => rw [hd] at h; cases h
    | some n =>
        rw [hd] at h
        cases h
        exact Or.inl ⟨_, rfl⟩
  · split at h
    · cases h
      exact Or.inr ⟨_, rfl⟩
    · cases h
  · cases h

theorem parseNum_shape (s : String) (u : Value) (h : parseNum? s = some u) :
    (∃ n, u = .int n) ∨ (∃ q, u = .float q) := by
  unfold parseNum? at h
  split at h
  · exact parseNumSigned_shape _ _ _ h
  · exact parseNumSigned_shape _ _ _ h

theorem toNumeric_shape (v : Value) :
    toNumeric v = .null ∨ (∃ n, toNumeric v = .int n) ∨
      (∃ q, toNumeric v = .float q) := by
  cases v with
  | null => exact Or.inl rfl
  | int n => exact Or.inr (Or.inl ⟨n, rfl⟩)
  | float q => exact Or.inr (Or.inr ⟨q, rfl⟩)
  | str s =>
      cases hp : parseNum? s with
      | none => exact Or.inl (by simp [toNumeric, hp])
      | some u =>
          rcases parseNum_shape s u hp with ⟨n, he⟩ | ⟨q, he⟩
          · exact Or.inr (Or.inl ⟨n, by simp [toNumeric, hp, he]⟩)
          · exact Or.inr (Or.inr ⟨q, by simp [toNumeric, hp, he]⟩)
  | date y m d => exact Or.inl rfl
  | strlist l => exact Or.inl rfl

theorem parseDate_shape (s : String) (u : Value) (h : parseDate? s = some u) :
    ∃ y m d, u = .date y m d := by
  unfold parseDate? at h
  split at h
  · split at h
    · split at h
      · cases h
        exact ⟨_, _, _, rfl⟩
      · cases h
    · cases h
  · cases h

theorem toDatetime_shape (v : Value) :
    toDatetime v = .null ∨ ∃ y m d, toDatetime v = .date y m d := by
  cases v with
  | null => exact Or.inl rfl
  | int n => exact Or.inl rfl
  | float q => exact Or.inl rfl
  | date y m d => exact Or.inr ⟨y, m, d, rfl⟩
  | strlist l => exact Or.inl rfl
  | str s =>
      cases hp : parseDate? s with
      | none => exact Or.inl (by simp [toDatetime, hp])
      | some u =>
          obtain ⟨y, m, d, he⟩ := parseDate_shape s u hp
          exact Or.inr ⟨y, m, d, by simp [toDatetime, hp, he]⟩

/-- The cell shapes that make a coercion stage a fixpoint: missing or an
integer for an int column, missing or a float for a float column, missing
or a datetime for a date column, and a string for the fallback. -/
def stableCell (k : DKind) (v : Value) : Bool :=
  match k, v with
  | .kint, .null => true
  | .kint, .int _ => true
  | .kfloat, .null => true
  | .kfloat, .float _ => true
  | .kdate, .null => true
  | .kdate, .date _ _ _ => true
  | .kstr, .str _ => true
  | _, _ => false

theorem coerceVal_stable (k : DKind) (v : Value) :
    stableCell k (coerceVal k v) = true := by
  unfold coerceVal
  cases k with
  | kint =>
      rcases toNumeric_shape v with h | ⟨n, h⟩ | ⟨q, h⟩
      · simp [dtypeCast, h, astInt64, stableCell]
      · simp [dtypeCast, h, astInt64, stableCell]
      · by_cases hq : q.den = 1
        · simp [dtypeCast, h, astInt64, hq, stableCell]
        · simp [dtypeCast, h, astInt64, hq, stableCell]
  | kfloat =>
      rcases toNumeric_shape v with h | ⟨n, h⟩ | ⟨q, h⟩ <;>
        simp [dtypeCast, h, asFloat, stableCell]
  | kdate =>
      rcases toDatetime_shape v with h | ⟨y, m, d, h⟩ <;>
        simp [dtypeCast, h, stableCell]
  | kstr => simp [dtypeCast, stableCell]

theorem stable_no_drop (k : DKind) (v : Value) (h : stableCell k v = true) :
    dtypeDrops k v = false := by
  cases k <;> cases v <;>
    simp_all [stableCell, dtypeDrops, toNumeric, toDatetime, Value.isNull]

theorem stable_cast_id (k : DKind) (v : Value) (h : stableCell k v = true) :
    dtypeCast k v = .ok v := by
  cases k <;> cases v <;>
    simp_all [stableCell, dtypeCast, toNumeric, toDatetime, astInt64, asFloat, pyStr]

theorem applyDtypeStage_id (df : DataFrame) (m : MetaRow)
    (hwf : ∀ r ∈ df.rows, m.column_name ∈ df.cols → m.column_name ∈ r.map Prod.fst)
    (hstable : m.column_name ∈ df.cols →
      ∀ r ∈ df.rows, stableCell (dtypeKind m.dtype) (cellOf r m.column_name) = true) :
    applyDtypeStage df m = .ok df := by
  unfold applyDtypeStage
  simp only []
  by_cases hc : m.column_name ∈ df.cols
  · rw [if_pos hc]
    have hfil : df.rows.filter
        (fun r => !dtypeDrops (dtypeKind m.dtype) (cellOf r m.column_name)) = df.rows :=
      List.filter_eq_self.mpr (fun r hr => by
        rw [stable_no_drop _ _ (hstable hc r hr)]
        rfl)
    rw [hfil]
    have hmapE : mapE (castCell (dtypeKind m.dtype) m.column_name) df.rows =
        .ok (df.rows.map id) := by
      refine mapE_ok_of_forall _ id df.rows ?_
      intro r hr
      unfold castCell
      rw [stable_cast_id _ _ (hstable hc r hr)]
      simp only [id]
      rw [setCell_self_of_mem _ r (hwf r hr hc)]
    rw [hmapE, List.map_id]
  · rw [if_neg hc]

theorem coerceRow_cons (m : MetaRow) (rest : List MetaRow) (cols : List String)
    (r : Row) :
    coerceRow (m :: rest) cols r = coerceRow rest cols
      (if m.column_name ∈ cols then
        setCell r m.column_name (coerceVal (dtypeKind m.dtype) (cellOf r m.column_name))
      else r) := rfl

theorem coerceRow_keys (meta : List MetaRow) (cols : List String) :
    ∀ r : Row, r.map Prod.fst = cols → (coerceRow meta cols r).map Prod.fst = cols := by
  induction meta with
  | nil => intro r h; exact h
  | cons m rest ih =>
      intro r h
      rw [coerceRow_cons]
      apply ih
      by_cases hc : m.column_name ∈ cols
      · rw [if_pos hc, setCell_keys _ _ r (by rw [h]; exact hc)]
        exact h
      · rw [if_neg hc]
        exact h

theorem coerceRow_cell_notin (rest : List MetaRow) (cols : List String) (c : String)
    (hnot : c ∉ rest.map (fun m => m.column_name)) :
    ∀ r : Row, cellOf (coerceRow rest cols r) c = cellOf r c := by
  induction rest with
  | nil => intro r; rfl
  | cons m2 r2 ih =>
      intro r
      have hne : c ≠ m2.column_name := by
        intro he
        exact hnot (by rw [List.map_cons]; exact he ▸ List.mem_cons_self _ _)
      have hnot2 : c ∉ r2.map (fun m => m.column_name) := by
        intro hm
        exact hnot (by rw [List.map_cons]; exact List.mem_cons_of_mem _ hm)
      rw [coerceRow_cons, ih hnot2]
      by_cases hc : m2.column_name ∈ cols
      · rw [if_pos hc, cellOf_setCell_ne _ _ _ hne r]
      · rw [if_neg hc]

theorem coerceRow_cell (meta : List MetaRow) (cols : List String) :
    ∀ m ∈ meta, (meta.map (fun m => m.column_name)).Nodup →
      m.column_name ∈ cols →
      ∀ r : Row, cellOf (coerceRow meta cols r) m.column_name =
        coerceVal (dtypeKind m.dtype) (cellOf r m.column_name) := by
  induction meta with
  | nil => intro m hm; cases hm
  | cons m0 rest ih =>
      intro m hm hnd hc r
      have hhead : m0.column_name ∉ rest.map (fun m => m.column_name) :=
        (List.nodup_cons.mp (by simpa using hnd)).1
      have hndr : (rest.map (fun m => m.column_name)).Nodup :=
        (List.nodup_cons.mp (by simpa using hnd)).2
      rcases List.mem_cons.mp hm with he | hm2
      · subst he
        rw [coerceRow_cons, if_pos hc, coerceRow_cell_notin rest cols _ hhead,
          cellOf_setCell_self]
      · have hne : m.column_name ≠ m0.column_name := by
          intro he
          exact hhead (he ▸ List.mem_map_of_mem (fun m => m.column_name) hm2)
        rw [coerceRow_cons]
        rw [ih m hm2 hndr hc]
        by_cases hc0 : m0.column_name ∈ cols
        · rw [if_pos hc0, cellOf_setCell_ne _ _ _ hne r]
        · rw [if_neg hc0]

/-- C5: datatype coercion is idempotent — whenever validate_datatype
succeeds on a well-formed frame under metadata with distinct declared
columns, applying it again to its own output succeeds and returns the
output unchanged: the second pass drops no rows and changes no values. -/
theorem validate_datatype_idempotent (meta : List MetaRow) (df out : DataFrame)
    (hnd : (meta.map (fun m => m.column_name)).Nodup) (hwf : Wf df)
    (h : validate_datatype meta df = .ok out) :
    validate_datatype meta out = .ok out := by
  obtain ⟨hcols, hrows⟩ := validate_datatype_char meta df out hnd h
  have hkeys : ∀ r ∈ out.rows, r.map Prod.fst = df.cols := by
    intro r hr
    rw [hrows] at hr
    rcases List.mem_map.mp hr with ⟨r0, hr0, he⟩
    subst he
    exact coerceRow_keys meta df.cols r0 (hwf r0 (List.mem_filter.mp hr0).1)
  have hstab : ∀ m ∈ meta, m.column_name ∈ df.cols →
      ∀ r ∈ out.rows, stableCell (dtypeKind m.dtype) (cellOf r m.column_name) = true := by
    intro m hm hc r hr
    rw [hrows] at hr
    rcases List.mem_map.mp hr with ⟨r0, _, he⟩
    subst he
    rw [coerceRow_cell meta df.cols m hm hnd hc r0]
    exact coerceVal_stable _ _
  unfold validate_datatype
  apply foldE_ok_of_forall
  intro m hm
  apply applyDtypeStage_id
  · intro r hr hcin
    rw [hkeys r hr]
    rw [hcols] at hcin
    exact hcin
  · intro hcin r hr
    rw [hcols] at hcin
    exact hstab m hm hcin r hr

/-- Witness for C5: the second coercion pass on the concrete output of the
first pass returns it unchanged. -/
theorem validate_datatype_idempotent_witness :
    (sampleDtypeMeta.map (fun m => m.column_name)).Nodup ∧
    Wf sampleDtypeDF ∧
    validate_datatype sampleDtypeMeta sampleDtypeDF =
      .ok (DataFrame.mk ["n"] [[("n", Value.int 12)], [("n", Value.null)]]) ∧
    validate_datatype sampleDtypeMeta
        (DataFrame.mk ["n"] [[("n", Value.int 12)], [("n", Value.null)]]) =
      .ok (DataFrame.mk ["n"] [[("n", Value.int 12)], [("n", Value.null)]]) :=
  ⟨by decide, by decide, by decide,
    validate_datatype_idempotent sampleDtypeMeta sampleDtypeDF
      (DataFrame.mk ["n"] [[("n", Value.int 12)], [("n", Value.null)]])
      (by decide) (by decide) (by decide)⟩


/-! ## Null publisher in the Gold transformer (claim C10) -/

theorem setColumn_rows (d : DataFrame) (c : String) (f : Row → Value) :
    (setColumn d c f).rows = d.rows.map (fun r => setCell r c (f r)) := rfl

theorem setColumn_cols_mono (d : DataFrame) (c2 : String) (f : Row → Value)
    (c : String) (h : c ∈ d.cols) : c ∈ (setColumn d c2 f).cols := by
  unfold setColumn
  simp only []
  split
  · exact h
  · exact List.mem_append_left _ h

/-- The counterexample row: a null publisher next to an INVALID ISBN-10. -/
def transformDemoRow : Row :=
  [("title", Value.str "t"), ("authors", Value.str "a"),
   ("isbn", Value.str "1234567890"), ("isbn13", Value.str "0000000000000"),
   ("publisher", Value.null), ("publication_date", Value.str "2000-01-01"),
   ("average_rating", Value.float 4), ("ratings_count", Value.int 10),
   ("language_code", Value.str "en")]

/-- The counterexample frame holding only that row. -/
def transformDemoDF : DataFrame :=
  ⟨["title", "authors", "isbn", "isbn13", "publisher", "publication_date",
    "average_rating", "ratings_count", "language_code"], [transformDemoRow]⟩

/-- C10 (counterexample): a dataset CAN contain a row with a null
publisher and still be transformed successfully, because the ISBN checksum
filter runs before the publisher standardization and can drop that row
first; here the null-publisher row has an invalid ISBN-10, the filter
removes it, and transform returns ok instead of raising. -/
theorem transform_succeeds_with_null_publisher :
    cellOf transformDemoRow "publisher" = .null ∧
    transformDemoRow ∈ transformDemoDF.rows ∧
    transform 2026 (fun _ => 0) [] transformDemoDF =
      .ok (DataFrame.mk
        ["title", "authors", "isbn", "isbn13", "publisher", "publication_date",
         "average_rating", "ratings_count", "language", "series",
         "primary_author", "all_authors", "book_age", "rating_popularity_score"]
        []) := by
  refine ⟨by decide, by decide, by decide⟩

/-- C10 (amended): if a row of the input frame passes BOTH zero-padded
checksums — and therefore survives the ISBN filter — while its publisher
cell is null, then the publisher-standardization apply raises and the
whole transform of the file fails with an error, rather than dropping or
passing that single row. -/
theorem transform_null_publisher_fails (todayYear : Int) (log1p : Rat → Rat)
    (langMap : List (String × String)) (df : DataFrame) (r : Row)
    (hr : r ∈ df.rows)
    (ht : "title" ∈ df.cols) (ha : "authors" ∈ df.cols)
    (hi : "isbn" ∈ df.cols) (hi13 : "isbn13" ∈ df.cols) (hp : "publisher" ∈ df.cols)
    (h10 : validate_isbn10_checksum (zfill 10 (pyStr (cellOf r "isbn"))) = true)
    (h13 : validate_isbn13_checksum (zfill 13 (pyStr (cellOf r "isbn13"))) = true)
    (hnull : cellOf r "publisher" = .null) :
    ∃ e, transform todayYear log1p langMap df = .error e := by
  unfold transform
  simp only []
  rw [if_neg (not_not_intro ht)]
  have ha2 : "authors" ∈ (setColumn (setColumn df "series"
      (fun r => seriesOf (cellOf r "title"))) "title"
      (fun r => titleStripped (cellOf r "title"))).cols :=
    setColumn_cols_mono _ _ _ _ (setColumn_cols_mono _ _ _ _ ha)
  rw [if_neg (not_not_intro ha2)]
  have hi4 : "isbn" ∈ (setColumn (setColumn (setColumn (setColumn df "series"
      (fun r => seriesOf (cellOf r "title"))) "title"
      (fun r => titleStripped (cellOf r "title"))) "primary_author"
      (fun r => primaryAuthorOf (cellOf r "authors"))) "all_authors"
      (fun r => allAuthorsOf (cellOf r "authors"))).cols :=
    setColumn_cols_mono _ _ _ _ (setColumn_cols_mono _ _ _ _
      (setColumn_cols_mono _ _ _ _ (setColumn_cols_mono _ _ _ _ hi)))
  rw [if_neg (not_not_intro hi4)]
  have hi134 : "isbn13" ∈ (setColumn (setColumn (setColumn (setColumn df "series"
      (fun r => seriesOf (cellOf r "title"))) "title"
      (fun r => titleStripped (cellOf r "title"))) "primary_author"
      (fun r => primaryAuthorOf (cellOf r "authors"))) "all_authors"
      (fun r => allAuthorsOf (cellOf r "authors"))).cols :=
    setColumn_cols_mono _ _ _ _ (setColumn_cols_mono _ _ _ _
      (setColumn_cols_mono _ _ _ _ (setColumn_cols_mono _ _ _ _ hi13)))
  rw [if_neg (not_not_intro hi134)]
  have hp7 : "publisher" ∈ (setColumn (setColumn (setColumn (setColumn (setColumn
      (setColumn df "series" (fun r => seriesOf (cellOf r "title"))) "title"
      (fun r => titleStripped (cellOf r "title"))) "primary_author"
      (fun r => primaryAuthorOf (cellOf r "authors"))) "all_authors"
      (fun r => allAuthorsOf (cellOf r "authors"))) "isbn"
      (fun r => .str (zfill 10 (pyStr (cellOf r "isbn"))))) "isbn13"
      (fun r => .str (zfill 13 (pyStr (cellOf r "isbn13"))))).cols :=
    setColumn_cols_mono _ _ _ _ (setColumn_cols_mono _ _ _ _
      (setColumn_cols_mono _ _ _ _ (setColumn_cols_mono _ _ _ _
        (setColumn_cols_mono _ _ _ _ (setColumn_cols_mono _ _ _ _ hp)))))
  rw [if_neg (not_not_intro hp7)]
  simp only [setColumn_rows]
  set f1 : Row → Row := fun r => setCell r "series" (seriesOf (cellOf r "title")) with hf1
  set f2 : Row → Row := fun r => setCell r "title" (titleStripped (cellOf r "title")) with hf2
  set f3 : Row → Row := fun r => setCell r "primary_author" (primaryAuthorOf (cellOf r "authors")) with hf3
  set f4 : Row → Row := fun r => setCell r "all_authors" (allAuthorsOf (cellOf r "authors")) with hf4
  set f5 : Row → Row := fun r => setCell r "isbn" (.str (zfill 10 (pyStr (cellOf r "isbn")))) with hf5
  set f6 : Row → Row := fun r => setCell r "isbn13" (.str (zfill 13 (pyStr (cellOf r "isbn13")))) with hf6
  have hc4isbn : cellOf (f4 (f3 (f2 (f1 r)))) "isbn" = cellOf r "isbn" := by
    rw [hf4, hf3, hf2, hf1]
    simp only []
    rw [cellOf_setCell_ne _ _ _ (by decide), cellOf_setCell_ne _ _ _ (by decide),
      cellOf_setCell_ne _ _ _ (by decide), cellOf_setCell_ne _ _ _ (by decide)]
  have hc5isbn13 : cellOf (f5 (f4 (f3 (f2 (f1 r))))) "isbn13" = cellOf r "isbn13" := by
    rw [hf5, hf4, hf3, hf2, hf1]
    simp only []
    rw [cellOf_setCell_ne _ _ _ (by decide), cellOf_setCell_ne _ _ _ (by decide),
      cellOf_setCell_ne _ _ _ (by decide), cellOf_setCell_ne _ _ _ (by decide),
      cellOf_setCell_ne _ _ _ (by decide)]
  have hc6isbn : cellOf (f6 (f5 (f4 (f3 (f2 (f1 r)))))) "isbn" =
      Value.str (zfill 10 (pyStr (cellOf r "isbn"))) := by
    conv_lhs => rw [hf6]
    simp only []
    rw [cellOf_setCell_ne _ _ _ (by decide)]
    conv_lhs => rw [hf5]
    simp only []
    rw [cellOf_setCell_self, hc4isbn]
  have hc6isbn13 : cellOf (f6 (f5 (f4 (f3 (f2 (f1 r)))))) "isbn13" =
      Value.str (zfill 13 (pyStr (cellOf r "isbn13"))) := by
    conv_lhs => rw [hf6]
    simp only []
    rw [cellOf_setCell_self, hc5isbn13]
  have hc6pub : cellOf (f6 (f5 (f4 (f3 (f2 (f1 r)))))) "publisher" = Value.null := by
    rw [hf6, hf5, hf4, hf3, hf2, hf1]
    simp only []
    rw [cellOf_setCell_ne _ _ _ (by decide), cellOf_setCell_ne _ _ _ (by decide),
      cellOf_setCell_ne _ _ _ (by decide), cellOf_setCell_ne _ _ _ (by decide),
      cellOf_setCell_ne _ _ _ (by decide), cellOf_setCell_ne _ _ _ (by decide)]
    exact hnull
  have hmask : isbnMaskOk (f6 (f5 (f4 (f3 (f2 (f1 r)))))) = true := by
    unfold isbnMaskOk
    rw [hc6isbn, hc6isbn13]
    simp only []
    rw [h10, h13]
    rfl
  have herr6 : cleanPublisherCell (f6 (f5 (f4 (f3 (f2 (f1 r)))))) =
      .error "AttributeError: value has no attribute lower" := by
    unfold cleanPublisherCell
    rw [hc6pub]
  have hr7mem : f6 (f5 (f4 (f3 (f2 (f1 r))))) ∈
      List.filter isbnMaskOk
        ((((((df.rows.map f1).map f2).map f3).map f4).map f5).map f6) :=
    List.mem_filter.mpr
      ⟨List.mem_map_of_mem f6 (List.mem_map_of_mem f5 (List.mem_map_of_mem f4
        (List.mem_map_of_mem f3 (List.mem_map_of_mem f2 (List.mem_map_of_mem f1 hr))))),
       hmask⟩
  obtain ⟨e2, he2⟩ := mapE_error_of_mem cleanPublisherCell _ _ herr6 _ hr7mem
  rw [he2]
  exact ⟨e2, rfl⟩

/-- The witness row: a null publisher next to VALID zero-padded ISBN
identifiers. -/
def transformNullRow : Row :=
  [("title", Value.str "t"), ("authors", Value.str "a"),
   ("isbn", Value.str "0306406152"), ("isbn13", Value.str "0000000000000"),
   ("publisher", Value.null), ("publication_date", Value.str "2000-01-01"),
   ("average_rating", Value.float 4), ("ratings_count", Value.int 10),
   ("language_code", Value.str "en")]

/-- The witness frame holding only that row. -/
def transformNullDF : DataFrame :=
  ⟨["title", "authors", "isbn", "isbn13", "publisher", "publication_date",
    "average_rating", "ratings_count", "language_code"], [transformNullRow]⟩

/-- Witness for the amended C10: the row survives both checksums, its
publisher is null, and the transform fails. -/
theorem transform_null_publisher_fails_witness :
    transformNullRow ∈ transformNullDF.rows ∧
    validate_isbn10_checksum (zfill 10 (pyStr (cellOf transformNullRow "isbn"))) = true ∧
    validate_isbn13_checksum (zfill 13 (pyStr (cellOf transformNullRow "isbn13"))) = true ∧
    cellOf transformNullRow "publisher" = .null ∧
    ∃ e, transform 2026 (fun _ => 0) [] transformNullDF = .error e :=
  ⟨by decide, by decide, by decide, by decide,
    transform_null_publisher_fails 2026 (fun _ => 0) [] transformNullDF
      transformNullRow (by decide) (by decide) (by decide) (by decide) (by decide)
      (by decide) (by decide) (by decide) (by decide)⟩

end ETL
